import Mathlib

/-!
# simple-one-api: configuration and model-routing core

A shallow embedding of `pkg/config/config.go`.

* Go maps (`map[string]V`) are association lists with first-match lookup.  The
  list order stands for the order in which a `range` loop visits the map, so a
  statement proved for every list holds for every iteration order.
* Go `int` values are `Int`; the code only compares and indexes with them.
* `uuid.New().String()` is a stream `uuid : Nat → String` read through a
  counter carried in the build state.
* Constants and functions of the package declared outside `config.go`
  (`DefaultSupportModelMap`, `ServiceTimeOut`, `GetLBIndex`, `KEYNAME_ALL`,
  `KEYNAME_RANDOM`, the `PROXY_STRATEGY_*` names) are parameters.
* Logging is dropped.  Fields of `ServiceModel` the code here never reads
  (credentials, the floating point limits) are left out.
* The package-level variables are the fields of one `Store` value that every
  operation takes and returns.  What viper reads and decodes, and what the file
  system answers, is an input of the operation.  Registered callbacks are names,
  and a trace in the store records installations and callback calls in order.
* `waitForFileReadable` runs on a clock counted in nanoseconds, with a tick every
  100 ms and the deadline at `maxWaitTime`.
-/

namespace SimpleOneApi

/-! ## Go maps -/

/-- Go `map[string]V` as an association list. -/
abbrev GoMap (V : Type) := List (String × V)

/-- Map read `v, exists := m[k]`. -/
def mapLookup {V : Type} : GoMap V → String → Option V
  | [], _ => none
  | (k', v) :: rest, k => if k' = k then some v else mapLookup rest k

/-- Map write `m[k] = v`: overwrite in place, or add a new key. -/
def mapSet {V : Type} : GoMap V → String → V → GoMap V
  | [], k, v => [(k, v)]
  | (k', v') :: rest, k, v =>
    if k' = k then (k, v) :: rest else (k', v') :: mapSet rest k v

/-- Builtin `delete(m, k)`. -/
def mapDelete {V : Type} (m : GoMap V) (k : String) : GoMap V :=
  m.filter (fun p => decide (p.1 ≠ k))

/-- The keys of a map, in visiting order. -/
def mapKeys {V : Type} (m : GoMap V) : List String :=
  m.map Prod.fst

/-! ## Data model -/

/-- Go `ServiceModel` (a Provider Entry). -/
structure ServiceModel where
  Provider : String
  EmbeddingModels : List String
  Models : List String
  ReasoningModels : GoMap String
  Enabled : Bool
  ServerUrl : String
  ModelMap : GoMap String
  ModelRedirect : GoMap String
  LimitTimeout : Int
  UseProxy : Option Bool
  Timeout : Int
  ProviderNamespace : String
  deriving DecidableEq, Repr

/-- Go `APIKeyConfig` (an API-Key Record). -/
structure APIKeyConfig where
  APIKey : String
  SupportedModels : GoMap (List String)
  deriving DecidableEq, Repr

/-- Go `ModelDetails` (a Binding); the embedded struct is the field `ServiceModel`. -/
structure ModelDetails where
  ServiceName : String
  ServiceModel : ServiceModel
  ServiceID : String
  Namespace : String
  deriving DecidableEq, Repr

/-- Go `ProxyConf`. -/
structure ProxyConf where
  Strategy : String := ""
  Type_ : String := ""
  HTTPProxy : String := ""
  HTTPSProxy : String := ""
  Socks5Proxy : String := ""
  Timeout : Int := 0
  deriving DecidableEq, Repr

/-- Go `Translation`. -/
structure Translation where
  Enable : Bool := false
  PromptTemplate : String := ""
  Retry : Int := 0
  Concurrency : Int := 0
  deriving DecidableEq, Repr

/-- The fields of Go `Configuration` read by the code embedded here; a field that a
literal leaves out has the zero value, as in Go. -/
structure Configuration where
  LoadBalancing : String
  ModelRedirect : GoMap String
  Services : GoMap (List ServiceModel)
  APIKeys : List APIKeyConfig
  ServerPort : String := ""
  Debug : Bool := false
  LogLevel : String := ""
  Proxy : ProxyConf := {}
  APIKey : String := ""
  MultiContentModels : List String := []
  Translation : Translation := {}
  EnableWeb : Bool := false
  deriving DecidableEq, Repr

/-- What a Go call that returns `(*T, error)` can do: return a value, return an
error, or stop the process with a run-time panic. -/
inductive Outcome (α : Type) where
  | ok (a : α)
  | error (msg : String)
  | panic
  deriving DecidableEq, Repr

/-! ## Request-time resolution -/

/-- Slice indexing `xs[i]` with a Go `int` index; `none` is the index-out-of-range panic. -/
def sliceIndex {α : Type} (xs : List α) (i : Int) : Option α :=
  if i < 0 then none else xs.get? i.toNat

/-- The `for _, sd := range serviceDetails` loop of `GetModelService`. -/
def enabledServices (serviceDetails : List ModelDetails) (namespace_ : String) : List ModelDetails :=
  serviceDetails.filter (fun sd => sd.ServiceModel.Enabled && decide (sd.ServiceModel.ProviderNamespace = namespace_))

/-- The error of `GetModelService` for a name that is no key of the index. -/
def errModelNotFound (modelName : String) : String :=
  "model " ++ modelName ++ " not found in the configuration"

/-- The error of `GetModelService` when the filtered list is empty. -/
def errNoEnabledModel (modelName : String) : String :=
  "no enabled model " ++ modelName ++ " found in the configuration"

/-- Go `GetModelService`, over the globals `ModelToService` and `LoadBalancingStrategy`. -/
def GetModelService (GetLBIndex : String → String → Int → Int)
    (ModelToService : GoMap (List ModelDetails)) (LoadBalancingStrategy : String)
    (modelName : String) (namespace_ : String) : Outcome ModelDetails :=
  match mapLookup ModelToService modelName with
  | some serviceDetails =>
    let enabled := enabledServices serviceDetails namespace_
    if enabled.length = 0 then
      Outcome.error (errNoEnabledModel modelName)
    else
      let index := GetLBIndex LoadBalancingStrategy modelName (enabled.length : Int)
      match sliceIndex enabled index with
      | some sd => Outcome.ok sd
      | none => Outcome.panic
  | none => Outcome.error (errModelNotFound modelName)

/-- Go `GetGlobalModelRedirect`, over the global `GlobalModelRedirect`. -/
def GetGlobalModelRedirect (KEYNAME_ALL KEYNAME_RANDOM : String)
    (GlobalModelRedirect : GoMap String) (model : String) : String :=
  match mapLookup GlobalModelRedirect KEYNAME_ALL with
  | some redirectModel =>
    if redirectModel = KEYNAME_ALL then KEYNAME_RANDOM else redirectModel
  | none =>
    match mapLookup GlobalModelRedirect model with
    | some redirectModel => redirectModel
    | none => model

/-- Go `IsProxyEnabled`: `strategy` is `GProxyConf.Strategy`, the `switch` tries its
cases in order. -/
def IsProxyEnabled (PROXY_STRATEGY_FORCEALL PROXY_STRATEGY_ALL PROXY_STRATEGY_DEFAULT
    PROXY_STRATEGY_DISABLED : String) (strategy : String) (s : ModelDetails) : Bool :=
  if strategy = PROXY_STRATEGY_FORCEALL then true
  else if strategy = PROXY_STRATEGY_ALL then
    (if s.ServiceModel.UseProxy = none || s.ServiceModel.UseProxy = some true then true else false)
  else if strategy = PROXY_STRATEGY_DEFAULT then
    (if s.ServiceModel.UseProxy = some true then true else false)
  else if strategy = PROXY_STRATEGY_DISABLED then false
  else false

/-! ## API keys -/

/-- Go `initAPIKeyMap`: the key table of the records `GSOAConf.APIKeys`. -/
def initAPIKeyMap (APIKeys : List APIKeyConfig) : GoMap APIKeyConfig :=
  APIKeys.foldl (fun apiKeyMap keyConfig => mapSet apiKeyMap keyConfig.APIKey keyConfig) []

/-- The nested loops of `ValidateAPIKeyAndModel`: some allowed-model list of the
record holds the wildcard or the model. -/
def keyAllows (keyConfig : APIKeyConfig) (model : String) : Bool :=
  keyConfig.SupportedModels.any (fun sm => sm.2.any (fun m => decide (m = "*") || decide (m = model)))

/-- Go `ValidateAPIKeyAndModel`, over the global `apiKeyMap`. -/
def ValidateAPIKeyAndModel (apiKeyMap : GoMap APIKeyConfig) (apikey : String) (model : String) :
    Bool × String :=
  if apiKeyMap.length = 0 then (true, "")
  else
    match mapLookup apiKeyMap apikey with
    | none => (false, "Forbidden: invalid API key")
    | some keyConfig =>
      if keyAllows keyConfig model then (true, "") else (false, "Forbidden: model not supported")

/-! ## Building the index -/

/-- The state of `createModelToServiceMap`: the local `modelToService`, the global
`SupportModels`, and how many identifiers have been drawn. -/
structure BuildState where
  modelToService : GoMap (List ModelDetails)
  SupportModels : GoMap String
  nextID : Nat
  deriving DecidableEq, Repr

/-- The read `modelToService[k]` with one result: the nil slice when `k` is no key. -/
def indexGet (modelToService : GoMap (List ModelDetails)) (k : String) : List ModelDetails :=
  (mapLookup modelToService k).getD []

/-- The statement `modelToService[k] = append(modelToService[k], detail)`. -/
def appendDetail (modelToService : GoMap (List ModelDetails)) (k : String) (detail : ModelDetails) :
    GoMap (List ModelDetails) :=
  mapSet modelToService k (indexGet modelToService k ++ [detail])

/-- The body of `for k, v := range detail.ModelRedirect` in the plain-model loop. -/
def redirectStep (detail : ModelDetails) (st : BuildState) (kv : String × String) : BuildState :=
  let sm1 := mapSet st.SupportModels kv.1 kv.2
  let sm2 := if (mapLookup sm1 kv.2).isSome then mapDelete sm1 kv.2 else sm1
  { modelToService := appendDetail st.modelToService kv.1 detail
    SupportModels := sm2
    nextID := st.nextID }

/-- The body of `for _, modelName := range model.Models`. -/
def plainStep (uuid : Nat → String) (serviceName : String) (model : ServiceModel)
    (st : BuildState) (modelName : String) : BuildState :=
  let detail : ModelDetails :=
    { ServiceName := serviceName
      ServiceModel := model
      ServiceID := uuid st.nextID
      Namespace := model.ProviderNamespace }
  let st1 : BuildState :=
    { modelToService := appendDetail st.modelToService modelName detail
      SupportModels := mapSet st.SupportModels modelName modelName
      nextID := st.nextID + 1 }
  detail.ServiceModel.ModelRedirect.foldl (redirectStep detail) st1

/-- The body of `for k, _ := range detail.ModelRedirect` in the embedding loop. -/
def embeddingRedirectStep (detail : ModelDetails) (st : BuildState) (kv : String × String) :
    BuildState :=
  { st with modelToService := appendDetail st.modelToService kv.1 detail }

/-- The body of `for _, modelName := range model.EmbeddingModels`; the `Namespace`
field is not set and keeps the zero value. -/
def embeddingStep (uuid : Nat → String) (serviceName : String) (model : ServiceModel)
    (st : BuildState) (modelName : String) : BuildState :=
  let detail : ModelDetails :=
    { ServiceName := serviceName
      ServiceModel := model
      ServiceID := uuid st.nextID
      Namespace := "" }
  let st1 : BuildState :=
    { st with
      modelToService := appendDetail st.modelToService modelName detail
      nextID := st.nextID + 1 }
  detail.ServiceModel.ModelRedirect.foldl (embeddingRedirectStep detail) st1

/-- The `if len(model.Models) == 0` block: the loop variable gets the default
model list of the provider group, when the group has one. -/
def withDefaultModels (DefaultSupportModelMap : GoMap (List String)) (serviceName : String)
    (model : ServiceModel) : ServiceModel :=
  if model.Models.length = 0 then
    match mapLookup DefaultSupportModelMap serviceName with
    | some dmv => { model with Models := dmv }
    | none => model
  else model

/-- The `if model.Timeout <= 0` block. -/
def withDefaultTimeout (ServiceTimeOut : Int) (model : ServiceModel) : ServiceModel :=
  if model.Timeout ≤ 0 then { model with Timeout := ServiceTimeOut } else model

/-- The copy of a Provider Entry that the loops embed into its Bindings. -/
def expandEntry (DefaultSupportModelMap : GoMap (List String)) (ServiceTimeOut : Int)
    (serviceName : String) (model : ServiceModel) : ServiceModel :=
  withDefaultTimeout ServiceTimeOut (withDefaultModels DefaultSupportModelMap serviceName model)

/-- The body of `for _, model := range serviceModels`. -/
def entryStep (DefaultSupportModelMap : GoMap (List String)) (ServiceTimeOut : Int)
    (uuid : Nat → String) (serviceName : String) (st : BuildState) (model : ServiceModel) :
    BuildState :=
  if model.Enabled then
    let model2 := expandEntry DefaultSupportModelMap ServiceTimeOut serviceName model
    let st1 := model2.Models.foldl (plainStep uuid serviceName model2) st
    model2.EmbeddingModels.foldl (embeddingStep uuid serviceName model2) st1
  else st

/-- The body of `for serviceName, serviceModels := range config.Services`. -/
def serviceStep (DefaultSupportModelMap : GoMap (List String)) (ServiceTimeOut : Int)
    (uuid : Nat → String) (st : BuildState) (group : String × List ServiceModel) : BuildState :=
  group.2.foldl (entryStep DefaultSupportModelMap ServiceTimeOut uuid group.1) st

/-- Go `createModelToServiceMap`: both maps start empty; the result carries the
returned index and the global `SupportModels`. -/
def createModelToServiceMap (DefaultSupportModelMap : GoMap (List String)) (ServiceTimeOut : Int)
    (uuid : Nat → String) (config : Configuration) : BuildState :=
  config.Services.foldl (serviceStep DefaultSupportModelMap ServiceTimeOut uuid)
    { modelToService := [], SupportModels := [], nextID := 0 }

/-! ## The build as a list of appends

The index component of the build is a sequence of `appendDetail` calls.  The
definitions below list these calls in the order the loops make them; the lemmas
`createModelToServiceMap_index` and `indexGet_replay` relate the list to the
index that the loops build. -/

/-- Run a list of `appendDetail` calls on an index. -/
def replay (modelToService : GoMap (List ModelDetails)) (events : List (String × ModelDetails)) :
    GoMap (List ModelDetails) :=
  events.foldl (fun idx ev => appendDetail idx ev.1 ev.2) modelToService

/-- The `detail` of the plain-model loop when `n` identifiers have been drawn. -/
def plainDetail (uuid : Nat → String) (serviceName : String) (model : ServiceModel) (n : Nat) :
    ModelDetails :=
  { ServiceName := serviceName
    ServiceModel := model
    ServiceID := uuid n
    Namespace := model.ProviderNamespace }

/-- The `detail` of the embedding loop when `n` identifiers have been drawn. -/
def embeddingDetail (uuid : Nat → String) (serviceName : String) (model : ServiceModel) (n : Nat) :
    ModelDetails :=
  { ServiceName := serviceName
    ServiceModel := model
    ServiceID := uuid n
    Namespace := "" }

/-- The appends of one round of a model loop: under the model name, then under
each key of the redirect table of the entry. -/
def detailEvents (detail : ModelDetails) (modelName : String) : List (String × ModelDetails) :=
  (modelName, detail) :: detail.ServiceModel.ModelRedirect.map (fun kv => (kv.1, detail))

/-- The appends of a whole model loop that starts with `n` identifiers drawn. -/
def loopEvents (mk : Nat → ModelDetails) : Nat → List String → List (String × ModelDetails)
  | _, [] => []
  | n, modelName :: rest => detailEvents (mk n) modelName ++ loopEvents mk (n + 1) rest

/-- The appends made for one Provider Entry. -/
def entryEvents (DefaultSupportModelMap : GoMap (List String)) (ServiceTimeOut : Int)
    (uuid : Nat → String) (serviceName : String) (n : Nat) (model : ServiceModel) :
    List (String × ModelDetails) :=
  if model.Enabled then
    loopEvents (plainDetail uuid serviceName
        (expandEntry DefaultSupportModelMap ServiceTimeOut serviceName model)) n
      (expandEntry DefaultSupportModelMap ServiceTimeOut serviceName model).Models
    ++ loopEvents (embeddingDetail uuid serviceName
        (expandEntry DefaultSupportModelMap ServiceTimeOut serviceName model))
      (n + (expandEntry DefaultSupportModelMap ServiceTimeOut serviceName model).Models.length)
      (expandEntry DefaultSupportModelMap ServiceTimeOut serviceName model).EmbeddingModels
  else []

/-- The number of identifiers drawn for one Provider Entry. -/
def entryIDs (DefaultSupportModelMap : GoMap (List String)) (ServiceTimeOut : Int)
    (serviceName : String) (model : ServiceModel) : Nat :=
  if model.Enabled then
    (expandEntry DefaultSupportModelMap ServiceTimeOut serviceName model).Models.length
      + (expandEntry DefaultSupportModelMap ServiceTimeOut serviceName model).EmbeddingModels.length
  else 0

/-- The appends made for the entries of one provider group. -/
def groupEvents (DefaultSupportModelMap : GoMap (List String)) (ServiceTimeOut : Int)
    (uuid : Nat → String) (serviceName : String) :
    Nat → List ServiceModel → List (String × ModelDetails)
  | _, [] => []
  | n, model :: rest =>
    entryEvents DefaultSupportModelMap ServiceTimeOut uuid serviceName n model
      ++ groupEvents DefaultSupportModelMap ServiceTimeOut uuid serviceName
        (n + entryIDs DefaultSupportModelMap ServiceTimeOut serviceName model) rest

/-- The number of identifiers drawn for the entries of one provider group. -/
def groupIDs (DefaultSupportModelMap : GoMap (List String)) (ServiceTimeOut : Int)
    (serviceName : String) : List ServiceModel → Nat
  | [] => 0
  | model :: rest =>
    entryIDs DefaultSupportModelMap ServiceTimeOut serviceName model
      + groupIDs DefaultSupportModelMap ServiceTimeOut serviceName rest

/-- The appends made for a list of provider groups. -/
def configEvents (DefaultSupportModelMap : GoMap (List String)) (ServiceTimeOut : Int)
    (uuid : Nat → String) : Nat → List (String × List ServiceModel) → List (String × ModelDetails)
  | _, [] => []
  | n, group :: rest =>
    groupEvents DefaultSupportModelMap ServiceTimeOut uuid group.1 n group.2
      ++ configEvents DefaultSupportModelMap ServiceTimeOut uuid
        (n + groupIDs DefaultSupportModelMap ServiceTimeOut group.1 group.2) rest

/-! ## Comparing two builds -/

/-- A Binding with its identifier blanked. -/
def eraseID (detail : ModelDetails) : ModelDetails :=
  { detail with ServiceID := "" }

/-- An index with every identifier blanked. -/
def eraseIDs (modelToService : GoMap (List ModelDetails)) : GoMap (List ModelDetails) :=
  modelToService.map (fun p => (p.1, p.2.map eraseID))

/-- What two builds are compared on: the index with the identifiers blanked, and
`SupportModels`. -/
def eraseState (st : BuildState) : GoMap (List ModelDetails) × GoMap String :=
  (eraseIDs st.modelToService, st.SupportModels)

/-- The configuration with every disabled Provider Entry deleted. -/
def dropDisabled (config : Configuration) : Configuration :=
  { config with
    Services := config.Services.map (fun group => (group.1, group.2.filter (fun e => e.Enabled))) }

/-! ## Multi-content patterns -/

/-- Go `strings.HasPrefix`, on the characters of the two strings. -/
def HasPrefix (s : String) (stem : String) : Bool :=
  stem.data.isPrefixOf s.data

/-- Go `strings.HasSuffix`. -/
def HasSuffix (s : String) (tail : String) : Bool :=
  tail.data.isSuffixOf s.data

/-- Go `strings.TrimSuffix`: `s` without the trailing `tail`, or `s` itself. -/
def TrimSuffix (s : String) (tail : String) : String :=
  if HasSuffix s tail then String.mk (s.data.take (s.data.length - tail.data.length)) else s

/-- Go `IsSupportMultiContent`, over the global `SupportMultiContentModels`. -/
def IsSupportMultiContent : List String → String → Bool
  | [], _ => false
  | item :: rest, model =>
    if HasSuffix item "*" then
      if HasPrefix model (TrimSuffix item "*") then true
      else IsSupportMultiContent rest model
    else if item = model then true
    else IsSupportMultiContent rest model

/-! ## Waiting for the file

Time is counted in nanoseconds, the unit of `time.Duration`.  The ticker fires at
the multiples of 100 ms; the context is done at `maxWaitTime`.  The `select` takes the
ticker case for every tick that comes before the deadline and the `ctx.Done()` case
once no tick comes before it any more; a tick that falls on the deadline is left to
the deadline.  `openOK k` tells whether the `os.OpenFile` call of tick `k` succeeds. -/

/-- The ticker period `100 * time.Millisecond`. -/
def tickInterval : Nat := 100 * 1000000

/-- The number of ticks that come before the deadline. -/
def ticksBeforeDeadline (maxWaitTime : Int) : Nat :=
  if maxWaitTime ≤ 0 then 0 else (maxWaitTime.toNat - 1) / tickInterval

/-- The error of `waitForFileReadable` at the deadline. -/
def errWaitTimeout (filePath : String) : String :=
  "timeout waiting for file to be readable: " ++ filePath

/-- The `for { select { ... } }` loop of `waitForFileReadable` when `k` ticks have
passed and `remaining` more come before the deadline: the error (if any) and the time
of the return. -/
def waitLoop (filePath : String) (openOK : Nat → Bool) (maxWaitTime : Int) :
    Nat → Nat → Option String × Int
  | 0, _ => (some (errWaitTimeout filePath), max maxWaitTime 0)
  | remaining + 1, k =>
    if openOK k then (none, (((k + 1) * tickInterval : Nat) : Int))
    else waitLoop filePath openOK maxWaitTime remaining (k + 1)

/-- Go `waitForFileReadable`. -/
def waitForFileReadable (openOK : Nat → Bool) (filePath : String) (maxWaitTime : Int) :
    Option String × Int :=
  waitLoop filePath openOK maxWaitTime (ticksBeforeDeadline maxWaitTime) 0

/-! ## The configuration store

The package-level variables are the fields of `Store`.  The viper instance `v` is
kept as the flag `viperInitialized` (`v != nil`); what viper reads and decodes is an
input of each operation.  A registered callback is known by a name; `trace` records,
in order, every installation of a configuration and every callback call. -/

/-- What happens in the store, in order. -/
inductive StoreEvent where
  | installed (conf : Configuration)
  | called (callback : String)
  deriving DecidableEq, Repr

/-- The package-level variables of `config.go`. -/
structure Store where
  GSOAConf : Option Configuration
  ModelToService : GoMap (List ModelDetails)
  LoadBalancingStrategy : String
  ServerPort : String
  APIKey : String
  Debug : Bool
  LogLevel : String
  SupportModels : GoMap String
  GlobalModelRedirect : GoMap String
  SupportMultiContentModels : List String
  GProxyConf : Option ProxyConf
  GTranslation : Option Translation
  apiKeyMap : GoMap APIKeyConfig
  viperInitialized : Bool
  watching : Bool
  configChangeCallbacks : List String
  trace : List StoreEvent
  deriving DecidableEq, Repr

/-- The initial value of `SupportMultiContentModels`, also the list that
`applyConfiguration` starts from. -/
def baseMultiContentModels : List String :=
  ["gpt-4o", "gpt-4-turbo", "glm-4v", "gemini-*", "yi-vision", "gpt-4o*"]

/-- The store at program start: every variable has its zero value or its initialiser. -/
def initialStore : Store :=
  { GSOAConf := none, ModelToService := [], LoadBalancingStrategy := "", ServerPort := "",
    APIKey := "", Debug := false, LogLevel := "", SupportModels := [],
    GlobalModelRedirect := [], SupportMultiContentModels := baseMultiContentModels,
    GProxyConf := none, GTranslation := none, apiKeyMap := [], viperInitialized := false,
    watching := false, configChangeCallbacks := [], trace := [] }

/-- Go `applyConfiguration`. -/
def applyConfiguration (DefaultSupportModelMap : GoMap (List String)) (ServiceTimeOut : Int)
    (uuid : Nat → String) (conf : Configuration) (s : Store) : Store :=
  { s with
    LoadBalancingStrategy := if conf.LoadBalancing = "" then "random" else conf.LoadBalancing
    GSOAConf := some conf
    GProxyConf := some conf.Proxy
    APIKey := if conf.APIKey ≠ "" then conf.APIKey else s.APIKey
    apiKeyMap := initAPIKeyMap conf.APIKeys
    ServerPort := if conf.ServerPort = "" then ":9090" else conf.ServerPort
    Debug := conf.Debug
    LogLevel := conf.LogLevel
    ModelToService :=
      (createModelToServiceMap DefaultSupportModelMap ServiceTimeOut uuid conf).modelToService
    SupportModels :=
      (createModelToServiceMap DefaultSupportModelMap ServiceTimeOut uuid conf).SupportModels
    GlobalModelRedirect := conf.ModelRedirect
    GTranslation := some conf.Translation
    SupportMultiContentModels :=
      if conf.MultiContentModels.length > 0 then baseMultiContentModels ++ conf.MultiContentModels
      else baseMultiContentModels
    trace := s.trace ++ [StoreEvent.installed conf] }

/-- Go `loadConfiguration`: `decode` is the result of `v.Unmarshal(&conf)`. -/
def loadConfiguration (decode : Except String Configuration) : Except String Configuration :=
  match decode with
  | Except.error err => Except.error ("failed to unmarshal config: " ++ err)
  | Except.ok conf => Except.ok conf

/-- Go `RegisterConfigChangeCallback`. -/
def RegisterConfigChangeCallback (callback : String) (s : Store) : Store :=
  { s with configChangeCallbacks := s.configChangeCallbacks ++ [callback] }

/-- The loop `for _, callback := range configChangeCallbacks { callback() }`. -/
def runCallbacks (callbacks : List String) (s : Store) : Store :=
  callbacks.foldl (fun st callback => { st with trace := st.trace ++ [StoreEvent.called callback] }) s

/-- Go `onConfigChange`. -/
def onConfigChange (DefaultSupportModelMap : GoMap (List String)) (ServiceTimeOut : Int)
    (uuid : Nat → String) (decode : Except String Configuration) (s : Store) : Store :=
  match loadConfiguration decode with
  | Except.error _ => s
  | Except.ok conf =>
    runCallbacks
      (applyConfiguration DefaultSupportModelMap ServiceTimeOut uuid conf s).configChangeCallbacks
      (applyConfiguration DefaultSupportModelMap ServiceTimeOut uuid conf s)

/-- Go `ReloadConfig`: `readInConfig` is the error of `v.ReadInConfig()`, if any; the
second component of the result is the returned error. -/
def ReloadConfig (DefaultSupportModelMap : GoMap (List String)) (ServiceTimeOut : Int)
    (uuid : Nat → String) (readInConfig : Option String) (decode : Except String Configuration)
    (s : Store) : Store × Option String :=
  if s.viperInitialized = false then (s, some "viper not initialized")
  else
    match readInConfig with
    | some err => (s, some ("failed to read config file: " ++ err))
    | none =>
      match loadConfiguration decode with
      | Except.error err => (s, some ("failed to load configuration: " ++ err))
      | Except.ok conf =>
        (applyConfiguration DefaultSupportModelMap ServiceTimeOut uuid conf s, none)

/-- What `InitConfig` gets from outside the package: the path helpers of `utils`,
the outcomes of opening the file, `filepath.Ext`, `strings.ToLower`, and what viper
reads and decodes. -/
structure InitEnv where
  ResolveRelativePathToAbsolute : String → Except String String
  FileExists : String → Bool
  openOK : String → Nat → Bool
  Ext : String → String
  ToLower : String → String
  readInConfig : Option String
  decode : Except String Configuration

/-- The part of `InitConfig` that follows `v = viper.New()`. -/
def initWithViper (DefaultSupportModelMap : GoMap (List String)) (ServiceTimeOut : Int)
    (uuid : Nat → String) (env : InitEnv) (ext : String) (s : Store) : Store × Option String :=
  if env.ToLower ext = ".json" ∨ env.ToLower ext = ".yml" ∨ env.ToLower ext = ".yaml" then
    match env.readInConfig with
    | some err => ({ s with viperInitialized := true }, some err)
    | none =>
      match loadConfiguration env.decode with
      | Except.error err => ({ s with viperInitialized := true }, some err)
      | Except.ok conf =>
        ({ applyConfiguration DefaultSupportModelMap ServiceTimeOut uuid conf
            { s with viperInitialized := true } with watching := true }, none)
  else ({ s with viperInitialized := true }, some ("unsupport config type: " ++ ext))

/-- The part of `InitConfig` that follows the resolution of the path. -/
def initWithPath (DefaultSupportModelMap : GoMap (List String)) (ServiceTimeOut : Int)
    (uuid : Nat → String) (env : InitEnv) (configAbsolutePath : String) (s : Store) :
    Store × Option String :=
  match (waitForFileReadable (env.openOK configAbsolutePath) configAbsolutePath
      (30 * 1000000000)).1 with
  | some err => (s, some err)
  | none =>
    if env.Ext configAbsolutePath = "" then (s, some "unsupport config type: no extension")
    else
      initWithViper DefaultSupportModelMap ServiceTimeOut uuid env (env.Ext configAbsolutePath) s

/-- Go `InitConfig`; the second component of the result is the returned error. -/
def InitConfig (DefaultSupportModelMap : GoMap (List String)) (ServiceTimeOut : Int)
    (uuid : Nat → String) (env : InitEnv) (configName : String) (s : Store) :
    Store × Option String :=
  match env.ResolveRelativePathToAbsolute configName with
  | Except.error err => (s, some err)
  | Except.ok configAbsolutePath =>
    if env.FileExists configAbsolutePath then
      initWithPath DefaultSupportModelMap ServiceTimeOut uuid env configAbsolutePath s
    else
      match env.ResolveRelativePathToAbsolute ("config/" ++ configName) with
      | Except.error err => (s, some err)
      | Except.ok configAbsolutePath2 =>
        initWithPath DefaultSupportModelMap ServiceTimeOut uuid env configAbsolutePath2 s

/-- What a reader of the live tuple sees of a store, with the binding identifiers
blanked: the default API key, the viper flag, the callbacks and the trace are set to
fixed values. -/
def liveTuple (s : Store) : Store :=
  { s with
    ModelToService := eraseIDs s.ModelToService
    APIKey := ""
    viperInitialized := false
    watching := false
    configChangeCallbacks := []
    trace := [] }

/-! ## Counting Bindings -/

/-- The number of Bindings that one Provider Entry of group `serviceName` puts under
the name `N`: one for each occurrence of `N` in the plain and in the embedding model
list, and one for each model name of either list for each occurrence of `N` among the
redirect keys. -/
def entryBindings (DefaultSupportModelMap : GoMap (List String)) (ServiceTimeOut : Int)
    (serviceName : String) (model : ServiceModel) (N : String) : Nat :=
  if model.Enabled then
    (expandEntry DefaultSupportModelMap ServiceTimeOut serviceName model).Models.count N
    + (expandEntry DefaultSupportModelMap ServiceTimeOut serviceName model).EmbeddingModels.count N
    + (mapKeys (expandEntry DefaultSupportModelMap ServiceTimeOut serviceName
        model).ModelRedirect).count N
      * ((expandEntry DefaultSupportModelMap ServiceTimeOut serviceName model).Models.length
        + (expandEntry DefaultSupportModelMap ServiceTimeOut serviceName
            model).EmbeddingModels.length)
  else 0

/-- The number of Bindings that one provider group puts under `N`. -/
def groupBindings (DefaultSupportModelMap : GoMap (List String)) (ServiceTimeOut : Int)
    (group : String × List ServiceModel) (N : String) : Nat :=
  (group.2.map (fun model =>
    entryBindings DefaultSupportModelMap ServiceTimeOut group.1 model N)).sum

/-- The number of Bindings that a list of provider groups puts under `N`. -/
def configBindings (DefaultSupportModelMap : GoMap (List String)) (ServiceTimeOut : Int)
    (services : GoMap (List ServiceModel)) (N : String) : Nat :=
  (services.map (fun group => groupBindings DefaultSupportModelMap ServiceTimeOut group N)).sum

/-! ## Visiting orders -/

/-- The same Provider Entry with its redirect table visited in another order. -/
def redirectReordered (e e' : ServiceModel) : Prop :=
  e'.ModelRedirect.Perm e.ModelRedirect ∧ e' = { e with ModelRedirect := e'.ModelRedirect }

/-- The same provider group with the redirect tables of its entries visited in
another order; the entries themselves are a slice and keep their order. -/
def groupReordered (group group' : String × List ServiceModel) : Prop :=
  group.1 = group'.1 ∧ List.Forall₂ redirectReordered group.2 group'.2

/-- The same services map with its groups and the redirect tables of its entries
visited in another order. -/
def servicesReordered (services services' : GoMap (List ServiceModel)) : Prop :=
  ∃ mid, services.Perm mid ∧ List.Forall₂ groupReordered mid services'

/-! ## Picking any Binding -/

/-- Lexicographic `≤` on lists of code points.  Go compares the bytes of the UTF-8
form, which orders strings the same way. -/
def codesLE : List Nat → List Nat → Bool
  | [], _ => true
  | _ :: _, [] => false
  | a :: as, b :: bs => if a < b then true else if b < a then false else codesLE as bs

/-- The order of Go strings. -/
def stringLE (a b : String) : Bool :=
  codesLE (a.data.map Char.toNat) (b.data.map Char.toNat)

/-- Insert a string into a sorted list. -/
def insertString (k : String) : List String → List String
  | [] => [k]
  | x :: xs => if stringLE k x then k :: x :: xs else x :: insertString k xs

/-- Go `sort.Strings`: the result is the list in increasing order (an insertion sort
here; every sort gives the same order up to equal strings). -/
def sortStrings : List String → List String
  | [] => []
  | k :: ks => insertString k (sortStrings ks)

/-- Go `GetRandomEnabledModelDetails`, over the globals `ModelToService` and
`LoadBalancingStrategy`; `len(ModelToService)` is the number of keys. -/
def GetRandomEnabledModelDetails (GetLBIndex : String → String → Int → Int)
    (KEYNAME_RANDOM : String) (ModelToService : GoMap (List ModelDetails))
    (LoadBalancingStrategy : String) : Outcome ModelDetails :=
  let index := GetLBIndex LoadBalancingStrategy KEYNAME_RANDOM (ModelToService.length : Int)
  let keys := sortStrings (mapKeys ModelToService)
  match sliceIndex keys index with
  | none => Outcome.panic
  | some model =>
    let modelDetails := indexGet ModelToService model
    let index2 := GetLBIndex LoadBalancingStrategy model (modelDetails.length : Int)
    match sliceIndex modelDetails index2 with
    | none => Outcome.panic
    | some randomModel => Outcome.ok randomModel

/-! ## The count of Bindings in the words of the specification -/

/-- What one enabled Provider Entry adds under `N`: the occurrences of `N` in its
plain model list after default-list expansion and in its embedding model list, plus,
when `N` is a key of its redirect table, the number of its plain and embedding model
names. -/
def specEntryBindings (DefaultSupportModelMap : GoMap (List String)) (serviceName : String)
    (model : ServiceModel) (N : String) : Nat :=
  (withDefaultModels DefaultSupportModelMap serviceName model).Models.count N
    + model.EmbeddingModels.count N
    + (if N ∈ mapKeys model.ModelRedirect then
        (withDefaultModels DefaultSupportModelMap serviceName model).Models.length
          + model.EmbeddingModels.length
      else 0)

/-- The sum of `specEntryBindings` over the enabled Provider Entries of all groups. -/
def specConfigBindings (DefaultSupportModelMap : GoMap (List String))
    (services : GoMap (List ServiceModel)) (N : String) : Nat :=
  (services.map (fun group =>
    ((group.2.filter (fun model => model.Enabled)).map (fun model =>
      specEntryBindings DefaultSupportModelMap group.1 model N)).sum)).sum

/-! ## Sample data -/

/-- A Provider Entry with every field at its zero value. -/
def zeroEntry : ServiceModel :=
  { Provider := "", EmbeddingModels := [], Models := [], ReasoningModels := [], Enabled := false,
    ServerUrl := "", ModelMap := [], ModelRedirect := [], LimitTimeout := 0, UseProxy := none,
    Timeout := 0, ProviderNamespace := "" }

/-- A Binding around a Provider Entry, with a given identifier. -/
def sampleBinding (serviceName : String) (model : ServiceModel) (serviceID : String) : ModelDetails :=
  { ServiceName := serviceName, ServiceModel := model, ServiceID := serviceID,
    Namespace := model.ProviderNamespace }

/-- The Provider Entry of `TestApplyConfiguration`. -/
def testEntry : ServiceModel :=
  { zeroEntry with Provider := "test", Models := ["test-model"], Enabled := true }

/-- The configuration of `TestApplyConfiguration`. -/
def testConfig : Configuration :=
  { LoadBalancing := "round_robin", ModelRedirect := [],
    Services := [("test_service", [testEntry])], APIKeys := [],
    ServerPort := ":9090", Debug := true, LogLevel := "info", APIKey := "test-api-key" }

/-- A configuration whose only Provider Entry is enabled and names no model. -/
def emptyModelsConfig : Configuration :=
  { LoadBalancing := "", ModelRedirect := [],
    Services := [("svc-a", [{ zeroEntry with Enabled := true }])], APIKeys := [] }

/-- An identifier stream. -/
def sampleUUID : Nat → String := fun n => "id-" ++ toString n

/-- An adapter that always picks the first candidate. -/
def firstLB : String → String → Int → Int := fun _ _ _ => 0

/-- An enabled Provider Entry that exposes `v` and redirects `k` to `v`. -/
def redirectEntry : ServiceModel :=
  { zeroEntry with
    Provider := "a", Models := ["v"], ModelRedirect := [("k", "v")], Enabled := true,
    ProviderNamespace := "ns" }

/-- An enabled Provider Entry of the same namespace that exposes `k` itself. -/
def otherEntry : ServiceModel :=
  { zeroEntry with Provider := "b", Models := ["k"], Enabled := true, ProviderNamespace := "ns" }

/-- A configuration with the two entries above, each in a group of its own. -/
def redirectConfig : Configuration :=
  { LoadBalancing := "", ModelRedirect := [],
    Services := [("svc-a", [redirectEntry]), ("svc-b", [otherEntry])], APIKeys := [] }

/-- The configuration `redirectConfig` with its two groups visited in the other order. -/
def redirectConfigSwapped : Configuration :=
  { LoadBalancing := "", ModelRedirect := [],
    Services := [("svc-b", [otherEntry]), ("svc-a", [redirectEntry])], APIKeys := [] }

/-- A configuration whose only Provider Entry is disabled. -/
def disabledConfig : Configuration :=
  { LoadBalancing := "", ModelRedirect := [],
    Services := [("svc-a", [{ zeroEntry with Models := ["m1"] }])], APIKeys := [] }

/-- An enabled Provider Entry of namespace `ns` with a plain and an embedding model. -/
def embeddingEntry : ServiceModel :=
  { zeroEntry with
    Models := ["m1"], EmbeddingModels := ["emb"], Enabled := true, ProviderNamespace := "ns" }

/-- A configuration with the entry above. -/
def embeddingConfig : Configuration :=
  { LoadBalancing := "", ModelRedirect := [],
    Services := [("svc-a", [embeddingEntry])], APIKeys := [] }

/-- An enabled Provider Entry that exposes `m` and redirects `k` to `m`. -/
def aliasEntry : ServiceModel :=
  { zeroEntry with Models := ["m"], ModelRedirect := [("k", "m")], Enabled := true }

/-- An enabled Provider Entry that exposes `m` and has no redirect. -/
def plainEntry : ServiceModel :=
  { zeroEntry with Models := ["m"], Enabled := true }

/-- A configuration with the two entries above, each in a group of its own. -/
def aliasConfig : Configuration :=
  { LoadBalancing := "", ModelRedirect := [],
    Services := [("svc-a", [aliasEntry]), ("svc-b", [plainEntry])], APIKeys := [] }

/-- The configuration `aliasConfig` with its two groups visited in the other order. -/
def aliasConfigSwapped : Configuration :=
  { LoadBalancing := "", ModelRedirect := [],
    Services := [("svc-b", [plainEntry]), ("svc-a", [aliasEntry])], APIKeys := [] }

/-- A configuration whose only entry exposes `x` and redirects `a` to `b` and `b` to
`c`, the pairs being visited in the given order. -/
def chainConfig (redirect : GoMap String) : Configuration :=
  { LoadBalancing := "", ModelRedirect := [],
    Services := [("svc-a", [{ zeroEntry with
      Models := ["x"], ModelRedirect := redirect, Enabled := true }])], APIKeys := [] }

/-- An adapter that always picks the last candidate. -/
def lastLB : String → String → Int → Int := fun _ _ count => count - 1

/-- Surroundings of `InitConfig` in which the file `/app/<name>` exists, opens at the
first tick and has the extension `.json`; what viper reads and decodes is given. -/
def sampleEnv (readInConfig : Option String) (decode : Except String Configuration) : InitEnv :=
  { ResolveRelativePathToAbsolute := fun name => Except.ok ("/app/" ++ name)
    FileExists := fun _ => true
    openOK := fun _ _ => true
    Ext := fun _ => ".json"
    ToLower := fun ext => ext
    readInConfig := readInConfig
    decode := decode }

/-! ## Lemmas on Go maps -/

theorem mapLookup_mapSet {V : Type} (m : GoMap V) (k k' : String) (v : V) :
    mapLookup (mapSet m k v) k' = if k = k' then some v else mapLookup m k' := by
  induction m with
  | nil =>
    by_cases h : k = k' <;> simp [mapSet, mapLookup, h]
  | cons p rest ih =>
    obtain ⟨a, b⟩ := p
    by_cases h1 : a = k
    · subst h1
      by_cases h2 : a = k' <;> simp [mapSet, mapLookup, h2]
    · by_cases h2 : a = k'
      · subst h2
        have h3 : ¬ k = a := fun h => h1 h.symm
        simp [mapSet, mapLookup, h1, h3]
      · simp [mapSet, mapLookup, h1, h2, ih]

theorem mapLookup_mapSet_self {V : Type} (m : GoMap V) (k : String) (v : V) :
    mapLookup (mapSet m k v) k = some v := by
  simp [mapLookup_mapSet]

theorem mapLookup_mapSet_of_ne {V : Type} (m : GoMap V) (k k' : String) (v : V) (h : k ≠ k') :
    mapLookup (mapSet m k v) k' = mapLookup m k' := by
  simp [mapLookup_mapSet, h]

theorem mapLookup_eq_none_iff {V : Type} (m : GoMap V) (k : String) :
    mapLookup m k = none ↔ k ∉ mapKeys m := by
  induction m with
  | nil => simp [mapLookup, mapKeys]
  | cons p rest ih =>
    obtain ⟨a, b⟩ := p
    by_cases h : a = k
    · simp [mapLookup, mapKeys, h]
    · have h2 : ¬ k = a := fun e => h e.symm
      simp only [mapKeys] at ih
      simp [mapLookup, mapKeys, h, h2, ih]

theorem mapLookup_ne_nil {V : Type} (m : GoMap V) (k : String) (v : V)
    (h : mapLookup m k = some v) : m.length ≠ 0 := by
  cases m with
  | nil => simp [mapLookup] at h
  | cons p rest => simp

/-! ## Lemmas on the key table -/

theorem mapLookup_foldl_set_of_not_mem (records : List APIKeyConfig) (m : GoMap APIKeyConfig)
    (k : String) (h : ∀ r ∈ records, r.APIKey ≠ k) :
    mapLookup (records.foldl (fun apiKeyMap keyConfig =>
      mapSet apiKeyMap keyConfig.APIKey keyConfig) m) k = mapLookup m k := by
  induction records generalizing m with
  | nil => rfl
  | cons r rest ih =>
    simp only [List.foldl_cons]
    rw [ih _ (fun r' hr' => h r' (List.mem_cons_of_mem _ hr'))]
    exact mapLookup_mapSet_of_ne m _ _ _ (h r (List.mem_cons_self _ _))

theorem foldl_set_length_pos (records : List APIKeyConfig) (m : GoMap APIKeyConfig)
    (h : m.length ≠ 0) :
    (records.foldl (fun apiKeyMap keyConfig =>
      mapSet apiKeyMap keyConfig.APIKey keyConfig) m).length ≠ 0 := by
  induction records generalizing m with
  | nil => exact h
  | cons r rest ih =>
    simp only [List.foldl_cons]
    exact ih _ (mapLookup_ne_nil _ r.APIKey r (mapLookup_mapSet_self m _ _))

theorem initAPIKeyMap_length_pos (records : List APIKeyConfig) (h : records ≠ []) :
    (initAPIKeyMap records).length ≠ 0 := by
  cases records with
  | nil => exact absurd rfl h
  | cons r rest =>
    simp only [initAPIKeyMap, List.foldl_cons]
    exact foldl_set_length_pos rest _ (mapLookup_ne_nil _ r.APIKey r (mapLookup_mapSet_self _ _ _))

theorem initAPIKeyMap_lookup_last (pre post : List APIKeyConfig) (r : APIKeyConfig)
    (hlast : ∀ r' ∈ post, r'.APIKey ≠ r.APIKey) :
    mapLookup (initAPIKeyMap (pre ++ r :: post)) r.APIKey = some r := by
  simp only [initAPIKeyMap, List.foldl_append, List.foldl_cons]
  rw [mapLookup_foldl_set_of_not_mem post _ _ hlast]
  exact mapLookup_mapSet_self _ _ _

theorem keyAllows_iff (keyConfig : APIKeyConfig) (model : String) :
    keyAllows keyConfig model = true ↔
      ∃ sm ∈ keyConfig.SupportedModels, model ∈ sm.2 ∨ "*" ∈ sm.2 := by
  simp only [keyAllows, List.any_eq_true, Bool.or_eq_true, decide_eq_true_eq]
  constructor
  · rintro ⟨sm, hsm, m, hm, h | h⟩
    · exact ⟨sm, hsm, Or.inr (h ▸ hm)⟩
    · exact ⟨sm, hsm, Or.inl (h ▸ hm)⟩
  · rintro ⟨sm, hsm, h | h⟩
    · exact ⟨sm, hsm, model, h, Or.inr rfl⟩
    · exact ⟨sm, hsm, "*", h, Or.inl rfl⟩

theorem sliceIndex_of_lt {α : Type} (xs : List α) (i : Int) (h0 : 0 ≤ i)
    (h1 : i < (xs.length : Int)) :
    ∃ x, xs.get? i.toNat = some x ∧ sliceIndex xs i = some x := by
  have hlt : i.toNat < xs.length := by omega
  refine ⟨xs.get ⟨i.toNat, hlt⟩, List.get?_eq_get hlt, ?_⟩
  have hneg : ¬ i < 0 := by omega
  simp only [sliceIndex, hneg, if_false]
  exact List.get?_eq_get hlt

/-! ## Request-time resolution: the claims -/

/-- C1: with an adapter whose result lies in `[0, count)`, `GetModelService` fails
with the not-found error when the name is no key of the index, fails with the
no-enabled-model error when it is a key but no Binding under it is enabled with the
entry namespace equal to the requested one, and otherwise returns the Binding at
position `GetLBIndex(strategy, name, n)` of the sublist, in index order and of
length `n`, of the Bindings that are enabled with that namespace. -/
theorem GetModelService_spec (GetLBIndex : String → String → Int → Int)
    (ModelToService : GoMap (List ModelDetails)) (strategy modelName ns : String)
    (hLB : ∀ (s key : String) (count : Int), 0 < count →
      0 ≤ GetLBIndex s key count ∧ GetLBIndex s key count < count) :
    (modelName ∉ mapKeys ModelToService →
      GetModelService GetLBIndex ModelToService strategy modelName ns
        = Outcome.error (errModelNotFound modelName)) ∧
    (∀ ds, mapLookup ModelToService modelName = some ds →
      (∀ b ∈ ds, ¬ (b.ServiceModel.Enabled = true ∧ b.ServiceModel.ProviderNamespace = ns)) →
      GetModelService GetLBIndex ModelToService strategy modelName ns
        = Outcome.error (errNoEnabledModel modelName)) ∧
    (∀ ds, mapLookup ModelToService modelName = some ds →
      (∃ b ∈ ds, b.ServiceModel.Enabled = true ∧ b.ServiceModel.ProviderNamespace = ns) →
      ∃ sd,
        (ds.filter (fun b => b.ServiceModel.Enabled
            && decide (b.ServiceModel.ProviderNamespace = ns))).get?
          (GetLBIndex strategy modelName
            ((ds.filter (fun b => b.ServiceModel.Enabled
              && decide (b.ServiceModel.ProviderNamespace = ns))).length : Int)).toNat = some sd ∧
        GetModelService GetLBIndex ModelToService strategy modelName ns = Outcome.ok sd) := by
  refine ⟨?_, ?_, ?_⟩
  · intro hk
    have hnone := (mapLookup_eq_none_iff ModelToService modelName).mpr hk
    simp [GetModelService, hnone]
  · intro ds hds hall
    have hnil : enabledServices ds ns = [] := by
      simp only [enabledServices, List.filter_eq_nil_iff]
      intro b hb hcond
      simp only [Bool.and_eq_true, decide_eq_true_eq] at hcond
      exact hall b hb hcond
    simp [GetModelService, hds, hnil]
  · rintro ds hds ⟨b, hb, hen, hns⟩
    have hmem : b ∈ enabledServices ds ns := by
      simp only [enabledServices, List.mem_filter, Bool.and_eq_true, decide_eq_true_eq]
      exact ⟨hb, hen, hns⟩
    have hlen : (enabledServices ds ns).length ≠ 0 := by
      intro h0
      rw [List.length_eq_zero] at h0
      rw [h0] at hmem
      exact List.not_mem_nil _ hmem
    have hpos : (0 : Int) < ((enabledServices ds ns).length : Int) := by omega
    obtain ⟨h0, h1⟩ := hLB strategy modelName _ hpos
    obtain ⟨sd, hget, hidx⟩ := sliceIndex_of_lt (enabledServices ds ns) _ h0 h1
    refine ⟨sd, hget, ?_⟩
    simp only [GetModelService, hds, hlen, if_false, hidx]

/-- Witness for C1: an index with one enabled Binding in namespace `ns`. -/
theorem GetModelService_spec_witness :
    ∃ sd, GetModelService firstLB
      [("m1", [sampleBinding "svc-a" { zeroEntry with Enabled := true, ProviderNamespace := "ns" } "id-0"])]
      "first" "m1" "ns" = Outcome.ok sd :=
  have h := (GetModelService_spec firstLB
      [("m1", [sampleBinding "svc-a" { zeroEntry with Enabled := true, ProviderNamespace := "ns" } "id-0"])]
      "first" "m1" "ns"
      (by intro s key count hc; simp only [firstLB]; omega)).2.2 _ rfl
      ⟨_, List.mem_cons_self _ _, rfl, rfl⟩
  h.elim (fun sd hsd => ⟨sd, hsd.2⟩)

/-- C6: `GetGlobalModelRedirect` returns the value under the wildcard key when the
table has that key (the pick-randomly token when the value is the wildcard token),
whatever the requested name; otherwise the entry of the requested name when there
is one; otherwise the requested name. -/
theorem GetGlobalModelRedirect_spec (KEYNAME_ALL KEYNAME_RANDOM : String) (T : GoMap String)
    (m : String) :
    (∀ v, mapLookup T KEYNAME_ALL = some v →
      GetGlobalModelRedirect KEYNAME_ALL KEYNAME_RANDOM T m
        = if v = KEYNAME_ALL then KEYNAME_RANDOM else v) ∧
    (KEYNAME_ALL ∉ mapKeys T → ∀ v, mapLookup T m = some v →
      GetGlobalModelRedirect KEYNAME_ALL KEYNAME_RANDOM T m = v) ∧
    (KEYNAME_ALL ∉ mapKeys T → m ∉ mapKeys T →
      GetGlobalModelRedirect KEYNAME_ALL KEYNAME_RANDOM T m = m) := by
  refine ⟨?_, ?_, ?_⟩
  · intro v hv
    simp [GetGlobalModelRedirect, hv]
  · intro hall v hv
    have hnone := (mapLookup_eq_none_iff T KEYNAME_ALL).mpr hall
    simp [GetGlobalModelRedirect, hnone, hv]
  · intro hall hm
    have hnone := (mapLookup_eq_none_iff T KEYNAME_ALL).mpr hall
    have hnone2 := (mapLookup_eq_none_iff T m).mpr hm
    simp [GetGlobalModelRedirect, hnone, hnone2]

/-- C5: for pairwise distinct strategy names, `IsProxyEnabled` is true under
force-all whatever the override, true under all exactly when the override is not
false, true under default exactly when the override is true, false under disabled,
and false under every other strategy string. -/
theorem IsProxyEnabled_table (FORCEALL ALL DEFAULT DISABLED : String)
    (hFA : FORCEALL ≠ ALL) (hFD : FORCEALL ≠ DEFAULT) (hFX : FORCEALL ≠ DISABLED)
    (hAD : ALL ≠ DEFAULT) (hAX : ALL ≠ DISABLED) (hDX : DEFAULT ≠ DISABLED)
    (strategy : String) (s : ModelDetails) :
    (strategy = FORCEALL → IsProxyEnabled FORCEALL ALL DEFAULT DISABLED strategy s = true) ∧
    (strategy = ALL → (IsProxyEnabled FORCEALL ALL DEFAULT DISABLED strategy s = true
      ↔ s.ServiceModel.UseProxy ≠ some false)) ∧
    (strategy = DEFAULT → (IsProxyEnabled FORCEALL ALL DEFAULT DISABLED strategy s = true
      ↔ s.ServiceModel.UseProxy = some true)) ∧
    (strategy = DISABLED → IsProxyEnabled FORCEALL ALL DEFAULT DISABLED strategy s = false) ∧
    (strategy ≠ FORCEALL → strategy ≠ ALL → strategy ≠ DEFAULT → strategy ≠ DISABLED →
      IsProxyEnabled FORCEALL ALL DEFAULT DISABLED strategy s = false) := by
  refine ⟨?_, ?_, ?_, ?_, ?_⟩
  · intro h
    simp [IsProxyEnabled, h]
  · intro h
    subst h
    have h1 : ¬ strategy = FORCEALL := fun e => hFA e.symm
    rcases hu : s.ServiceModel.UseProxy with _ | b
    · simp [IsProxyEnabled, h1, hu]
    · cases b <;> simp [IsProxyEnabled, h1, hu]
  · intro h
    subst h
    have h1 : ¬ strategy = FORCEALL := fun e => hFD e.symm
    have h2 : ¬ strategy = ALL := fun e => hAD e.symm
    rcases hu : s.ServiceModel.UseProxy with _ | b
    · simp [IsProxyEnabled, h1, h2, hu]
    · cases b <;> simp [IsProxyEnabled, h1, h2, hu]
  · intro h
    subst h
    have h1 : ¬ strategy = FORCEALL := fun e => hFX e.symm
    have h2 : ¬ strategy = ALL := fun e => hAX e.symm
    have h3 : ¬ strategy = DEFAULT := fun e => hDX e.symm
    simp [IsProxyEnabled, h1, h2, h3]
  · intro h1 h2 h3 h4
    simp [IsProxyEnabled, h1, h2, h3, h4]

/-- Witness for C5: the strategy names of the specification, strategy force-all and an
override set to false. -/
theorem IsProxyEnabled_table_witness :
    IsProxyEnabled "force-all" "all" "default" "disabled" "force-all"
      (sampleBinding "svc-a" { zeroEntry with UseProxy := some false } "id-0") = true :=
  (IsProxyEnabled_table "force-all" "all" "default" "disabled"
    (by decide) (by decide) (by decide) (by decide) (by decide) (by decide)
    "force-all" (sampleBinding "svc-a" { zeroEntry with UseProxy := some false } "id-0")).1 rfl

/-! ## API keys: the claims -/

/-- C2 as stated fails: two records share the key `k1`, the first one allows
`gpt-x`, and the key table keeps the second one only, so the key is refused for
`gpt-x` with the model-not-supported reason. -/
theorem ValidateAPIKeyAndModel_shadowed_record :
    (⟨"k1", [("svc", ["gpt-x"])]⟩ : APIKeyConfig)
        ∈ [(⟨"k1", [("svc", ["gpt-x"])]⟩ : APIKeyConfig), ⟨"k1", [("svc", ["other"])]⟩] ∧
      (∃ sm ∈ (⟨"k1", [("svc", ["gpt-x"])]⟩ : APIKeyConfig).SupportedModels,
        "gpt-x" ∈ sm.2 ∨ "*" ∈ sm.2) ∧
      ValidateAPIKeyAndModel
        (initAPIKeyMap [⟨"k1", [("svc", ["gpt-x"])]⟩, ⟨"k1", [("svc", ["other"])]⟩])
        "k1" "gpt-x" = (false, "Forbidden: model not supported") := by
  refine ⟨List.mem_cons_self _ _, ⟨("svc", ["gpt-x"]), List.mem_cons_self _ _, Or.inl ?_⟩, ?_⟩
  · exact List.mem_cons_self _ _
  · decide

/-- C2 amended: for a record that is the last one of the list with its key, the key
is allowed for a model exactly when one of the allowed-model lists of the record
holds the model or the wildcard; when none does, the answer is false with the
model-not-supported reason. -/
theorem ValidateAPIKeyAndModel_last_record (pre post : List APIKeyConfig) (r : APIKeyConfig)
    (m : String) (hlast : ∀ r' ∈ post, r'.APIKey ≠ r.APIKey) :
    ((ValidateAPIKeyAndModel (initAPIKeyMap (pre ++ r :: post)) r.APIKey m).1 = true ↔
      ∃ sm ∈ r.SupportedModels, m ∈ sm.2 ∨ "*" ∈ sm.2) ∧
    ((∃ sm ∈ r.SupportedModels, m ∈ sm.2 ∨ "*" ∈ sm.2) →
      ValidateAPIKeyAndModel (initAPIKeyMap (pre ++ r :: post)) r.APIKey m = (true, "")) ∧
    ((¬ ∃ sm ∈ r.SupportedModels, m ∈ sm.2 ∨ "*" ∈ sm.2) →
      ValidateAPIKeyAndModel (initAPIKeyMap (pre ++ r :: post)) r.APIKey m
        = (false, "Forbidden: model not supported")) := by
  have hlook := initAPIKeyMap_lookup_last pre post r hlast
  have hlen := mapLookup_ne_nil _ _ _ hlook
  have hiff := keyAllows_iff r m
  by_cases hk : keyAllows r m = true
  · have hex := hiff.mp hk
    have hval : ValidateAPIKeyAndModel (initAPIKeyMap (pre ++ r :: post)) r.APIKey m
        = (true, "") := by
      simp only [ValidateAPIKeyAndModel, hlen, if_false, hlook, hk, if_true]
    refine ⟨?_, fun _ => hval, fun hno => absurd hex hno⟩
    rw [hval]
    exact ⟨fun _ => hex, fun _ => rfl⟩
  · have hno : ¬ ∃ sm ∈ r.SupportedModels, m ∈ sm.2 ∨ "*" ∈ sm.2 := fun h => hk (hiff.mpr h)
    have hval : ValidateAPIKeyAndModel (initAPIKeyMap (pre ++ r :: post)) r.APIKey m
        = (false, "Forbidden: model not supported") := by
      simp [ValidateAPIKeyAndModel, hlen, hlook, hk]
    refine ⟨?_, fun hex => absurd hex hno, fun _ => hval⟩
    rw [hval]
    exact ⟨fun h => absurd h (by decide), fun hex => absurd hex hno⟩

/-- Witness for C2 amended: the record of the specification, alone in the list. -/
theorem ValidateAPIKeyAndModel_last_record_witness :
    ValidateAPIKeyAndModel (initAPIKeyMap ([] ++ [(⟨"k1", [("svc", ["gpt-x"])]⟩ : APIKeyConfig)]))
      "k1" "gpt-x" = (true, "") :=
  (ValidateAPIKeyAndModel_last_record [] [] ⟨"k1", [("svc", ["gpt-x"])]⟩ "gpt-x"
    (fun _ h => absurd h (List.not_mem_nil _))).2.1
    ⟨("svc", ["gpt-x"]), List.mem_cons_self _ _, Or.inl (List.mem_cons_self _ _)⟩

/-- C3: with no API-Key Records the key table is empty and `ValidateAPIKeyAndModel`
returns `(true, "")` for every key, the empty string included, and every model. -/
theorem ValidateAPIKeyAndModel_open_mode (k m : String) :
    initAPIKeyMap [] = [] ∧ ValidateAPIKeyAndModel (initAPIKeyMap []) k m = (true, "") := by
  constructor
  · rfl
  · simp [ValidateAPIKeyAndModel, initAPIKeyMap]

/-- C4: with a non-empty list of records and a presented key that is the key of no
record, `ValidateAPIKeyAndModel` returns false with the invalid-key reason, for
every model; that reason is not the model-not-supported reason. -/
theorem ValidateAPIKeyAndModel_invalid_key (records : List APIKeyConfig) (k m : String)
    (hne : records ≠ []) (hk : ∀ r ∈ records, r.APIKey ≠ k) :
    ValidateAPIKeyAndModel (initAPIKeyMap records) k m = (false, "Forbidden: invalid API key") ∧
    "Forbidden: invalid API key" ≠ "Forbidden: model not supported" := by
  have hlen := initAPIKeyMap_length_pos records hne
  have hlook : mapLookup (initAPIKeyMap records) k = none := by
    simp only [initAPIKeyMap]
    rw [mapLookup_foldl_set_of_not_mem records [] k hk]
    rfl
  refine ⟨?_, by decide⟩
  simp only [ValidateAPIKeyAndModel, hlen, if_false, hlook]

/-- Witness for C4: a record whose wildcard allows every model, and an unknown key. -/
theorem ValidateAPIKeyAndModel_invalid_key_witness :
    ValidateAPIKeyAndModel (initAPIKeyMap [⟨"k1", [("svc", ["*"])]⟩]) "bad" "gpt-x"
      = (false, "Forbidden: invalid API key") :=
  (ValidateAPIKeyAndModel_invalid_key [⟨"k1", [("svc", ["*"])]⟩] "bad" "gpt-x"
    (by simp) (by intro r hr; simp only [List.mem_singleton] at hr; subst hr; decide)).1

/-! ## Lemmas on the build -/

theorem indexGet_appendDetail (idx : GoMap (List ModelDetails)) (k N : String) (d : ModelDetails) :
    indexGet (appendDetail idx k d) N
      = if k = N then indexGet idx N ++ [d] else indexGet idx N := by
  unfold indexGet appendDetail
  rw [mapLookup_mapSet]
  by_cases h : k = N
  · subst h
    simp [indexGet]
  · simp [h]

theorem replay_append (idx : GoMap (List ModelDetails)) (a b : List (String × ModelDetails)) :
    replay idx (a ++ b) = replay (replay idx a) b := by
  simp [replay, List.foldl_append]

theorem indexGet_replay (events : List (String × ModelDetails)) (idx : GoMap (List ModelDetails))
    (N : String) :
    indexGet (replay idx events) N
      = indexGet idx N ++ (events.filter (fun ev => decide (ev.1 = N))).map Prod.snd := by
  induction events generalizing idx with
  | nil => simp [replay]
  | cons ev rest ih =>
    have hstep : replay idx (ev :: rest) = replay (appendDetail idx ev.1 ev.2) rest := rfl
    rw [hstep, ih, indexGet_appendDetail]
    by_cases h : ev.1 = N
    · simp [h, List.filter_cons]
    · simp [h, List.filter_cons]

theorem mem_indexGet_replay_nil (events : List (String × ModelDetails)) (N : String)
    (b : ModelDetails) :
    b ∈ indexGet (replay [] events) N ↔ (N, b) ∈ events := by
  rw [indexGet_replay]
  simp only [indexGet, mapLookup, Option.getD_none, List.nil_append, List.mem_map,
    List.mem_filter, decide_eq_true_eq]
  constructor
  · rintro ⟨ev, ⟨hev, hk⟩, hb⟩
    obtain ⟨k, d⟩ := ev
    simp only at hk hb
    subst hk
    subst hb
    exact hev
  · intro h
    exact ⟨(N, b), ⟨h, rfl⟩, rfl⟩

theorem mem_mapKeys_of_mem_indexGet (idx : GoMap (List ModelDetails)) (N : String)
    (b : ModelDetails) (h : b ∈ indexGet idx N) : N ∈ mapKeys idx := by
  by_contra hk
  have hnone := (mapLookup_eq_none_iff idx N).mpr hk
  simp [indexGet, hnone] at h

theorem redirect_foldl_index (detail : ModelDetails) (redirects : List (String × String))
    (st : BuildState) :
    (redirects.foldl (redirectStep detail) st).modelToService
        = replay st.modelToService (redirects.map (fun kv => (kv.1, detail))) ∧
      (redirects.foldl (redirectStep detail) st).nextID = st.nextID := by
  induction redirects generalizing st with
  | nil => exact ⟨rfl, rfl⟩
  | cons kv rest ih =>
    simp only [List.foldl_cons, List.map_cons]
    obtain ⟨h1, h2⟩ := ih (redirectStep detail st kv)
    exact ⟨h1, h2⟩

theorem embeddingRedirect_foldl_index (detail : ModelDetails) (redirects : List (String × String))
    (st : BuildState) :
    (redirects.foldl (embeddingRedirectStep detail) st).modelToService
        = replay st.modelToService (redirects.map (fun kv => (kv.1, detail))) ∧
      (redirects.foldl (embeddingRedirectStep detail) st).nextID = st.nextID ∧
      (redirects.foldl (embeddingRedirectStep detail) st).SupportModels = st.SupportModels := by
  induction redirects generalizing st with
  | nil => exact ⟨rfl, rfl, rfl⟩
  | cons kv rest ih =>
    simp only [List.foldl_cons, List.map_cons]
    obtain ⟨h1, h2, h3⟩ := ih (embeddingRedirectStep detail st kv)
    exact ⟨h1, h2, h3⟩

theorem plainStep_index (uuid : Nat → String) (g : String) (model : ServiceModel)
    (st : BuildState) (M : String) :
    (plainStep uuid g model st M).modelToService
        = replay st.modelToService (detailEvents (plainDetail uuid g model st.nextID) M) ∧
      (plainStep uuid g model st M).nextID = st.nextID + 1 := by
  unfold plainStep
  exact redirect_foldl_index _ _ _

theorem embeddingStep_index (uuid : Nat → String) (g : String) (model : ServiceModel)
    (st : BuildState) (M : String) :
    (embeddingStep uuid g model st M).modelToService
        = replay st.modelToService (detailEvents (embeddingDetail uuid g model st.nextID) M) ∧
      (embeddingStep uuid g model st M).nextID = st.nextID + 1 := by
  unfold embeddingStep
  obtain ⟨h1, h2, _⟩ := embeddingRedirect_foldl_index
    { ServiceName := g, ServiceModel := model, ServiceID := uuid st.nextID, Namespace := "" }
    model.ModelRedirect
    { st with
      modelToService := appendDetail st.modelToService M
        { ServiceName := g, ServiceModel := model, ServiceID := uuid st.nextID, Namespace := "" }
      nextID := st.nextID + 1 }
  exact ⟨h1, h2⟩

theorem plainLoop_index (uuid : Nat → String) (g : String) (model : ServiceModel)
    (Ms : List String) (st : BuildState) :
    (Ms.foldl (plainStep uuid g model) st).modelToService
        = replay st.modelToService (loopEvents (plainDetail uuid g model) st.nextID Ms) ∧
      (Ms.foldl (plainStep uuid g model) st).nextID = st.nextID + Ms.length := by
  induction Ms generalizing st with
  | nil => exact ⟨rfl, rfl⟩
  | cons M rest ih =>
    simp only [List.foldl_cons, loopEvents, List.length_cons]
    obtain ⟨h1, h2⟩ := ih (plainStep uuid g model st M)
    obtain ⟨h3, h4⟩ := plainStep_index uuid g model st M
    rw [h1, h2, h3, h4, replay_append]
    exact ⟨rfl, by omega⟩

theorem embeddingLoop_index (uuid : Nat → String) (g : String) (model : ServiceModel)
    (Ms : List String) (st : BuildState) :
    (Ms.foldl (embeddingStep uuid g model) st).modelToService
        = replay st.modelToService (loopEvents (embeddingDetail uuid g model) st.nextID Ms) ∧
      (Ms.foldl (embeddingStep uuid g model) st).nextID = st.nextID + Ms.length := by
  induction Ms generalizing st with
  | nil => exact ⟨rfl, rfl⟩
  | cons M rest ih =>
    simp only [List.foldl_cons, loopEvents, List.length_cons]
    obtain ⟨h1, h2⟩ := ih (embeddingStep uuid g model st M)
    obtain ⟨h3, h4⟩ := embeddingStep_index uuid g model st M
    rw [h1, h2, h3, h4, replay_append]
    exact ⟨rfl, by omega⟩

theorem entryStep_index (dm : GoMap (List String)) (ST : Int) (uuid : Nat → String) (g : String)
    (st : BuildState) (e : ServiceModel) :
    (entryStep dm ST uuid g st e).modelToService
        = replay st.modelToService (entryEvents dm ST uuid g st.nextID e) ∧
      (entryStep dm ST uuid g st e).nextID = st.nextID + entryIDs dm ST g e := by
  unfold entryStep entryEvents entryIDs
  by_cases hen : e.Enabled = true
  · simp only [hen, if_true]
    obtain ⟨h1, h2⟩ := plainLoop_index uuid g (expandEntry dm ST g e)
      (expandEntry dm ST g e).Models st
    obtain ⟨h3, h4⟩ := embeddingLoop_index uuid g (expandEntry dm ST g e)
      (expandEntry dm ST g e).EmbeddingModels
      ((expandEntry dm ST g e).Models.foldl (plainStep uuid g (expandEntry dm ST g e)) st)
    rw [h3, h4, h1, h2, replay_append]
    exact ⟨rfl, by omega⟩
  · simp only [hen]
    exact ⟨rfl, rfl⟩

theorem group_index (dm : GoMap (List String)) (ST : Int) (uuid : Nat → String) (g : String)
    (es : List ServiceModel) (st : BuildState) :
    (es.foldl (entryStep dm ST uuid g) st).modelToService
        = replay st.modelToService (groupEvents dm ST uuid g st.nextID es) ∧
      (es.foldl (entryStep dm ST uuid g) st).nextID = st.nextID + groupIDs dm ST g es := by
  induction es generalizing st with
  | nil => exact ⟨rfl, rfl⟩
  | cons e rest ih =>
    simp only [List.foldl_cons, groupEvents, groupIDs]
    obtain ⟨h1, h2⟩ := ih (entryStep dm ST uuid g st e)
    obtain ⟨h3, h4⟩ := entryStep_index dm ST uuid g st e
    rw [h1, h2, h3, h4, replay_append]
    exact ⟨rfl, by omega⟩

theorem config_index (dm : GoMap (List String)) (ST : Int) (uuid : Nat → String)
    (groups : List (String × List ServiceModel)) (st : BuildState) :
    (groups.foldl (serviceStep dm ST uuid) st).modelToService
      = replay st.modelToService (configEvents dm ST uuid st.nextID groups) := by
  induction groups generalizing st with
  | nil => rfl
  | cons grp rest ih =>
    simp only [List.foldl_cons, configEvents]
    obtain ⟨h3, h4⟩ := group_index dm ST uuid grp.1 grp.2 st
    rw [ih (serviceStep dm ST uuid st grp)]
    unfold serviceStep
    rw [h3, h4, replay_append]

theorem createModelToServiceMap_index (dm : GoMap (List String)) (ST : Int) (uuid : Nat → String)
    (config : Configuration) :
    (createModelToServiceMap dm ST uuid config).modelToService
      = replay [] (configEvents dm ST uuid 0 config.Services) :=
  config_index dm ST uuid config.Services _

/-! ## Where the appends come from -/

theorem mem_detailEvents (d : ModelDetails) (M : String) (x : String × ModelDetails) :
    x ∈ detailEvents d M ↔
      x.2 = d ∧ (x.1 = M ∨ x.1 ∈ mapKeys d.ServiceModel.ModelRedirect) := by
  obtain ⟨k, b⟩ := x
  simp only [detailEvents, List.mem_cons, List.mem_map, Prod.mk.injEq, mapKeys]
  constructor
  · rintro (⟨h1, h2⟩ | ⟨kv, hkv, h1, h2⟩)
    · exact ⟨h2, Or.inl h1⟩
    · exact ⟨h2.symm, Or.inr ⟨kv, hkv, h1⟩⟩
  · rintro ⟨h2, h1 | ⟨kv, hkv, h1⟩⟩
    · exact Or.inl ⟨h1, h2⟩
    · exact Or.inr ⟨kv, hkv, h1, h2.symm⟩

theorem mem_loopEvents (mk : Nat → ModelDetails) (Ms : List String) (n : Nat)
    (x : String × ModelDetails) (h : x ∈ loopEvents mk n Ms) :
    ∃ i, ∃ M ∈ Ms, x ∈ detailEvents (mk i) M := by
  induction Ms generalizing n with
  | nil => simp [loopEvents] at h
  | cons M rest ih =>
    simp only [loopEvents, List.mem_append] at h
    rcases h with h | h
    · exact ⟨n, M, List.mem_cons_self _ _, h⟩
    · obtain ⟨i, M', hM', hx⟩ := ih (n + 1) h
      exact ⟨i, M', List.mem_cons_of_mem _ hM', hx⟩

theorem loopEvents_contains (mk : Nat → ModelDetails) (Ms : List String) (n : Nat) (M : String)
    (h : M ∈ Ms) : ∃ i, detailEvents (mk i) M ⊆ loopEvents mk n Ms := by
  induction Ms generalizing n with
  | nil => exact absurd h (List.not_mem_nil _)
  | cons M' rest ih =>
    rcases List.mem_cons.mp h with h | h
    · subst h
      refine ⟨n, ?_⟩
      intro x hx
      simp only [loopEvents, List.mem_append]
      exact Or.inl hx
    · obtain ⟨i, hi⟩ := ih (n + 1) h
      refine ⟨i, ?_⟩
      intro x hx
      simp only [loopEvents, List.mem_append]
      exact Or.inr (hi hx)

theorem mem_groupEvents (dm : GoMap (List String)) (ST : Int) (uuid : Nat → String) (g : String)
    (es : List ServiceModel) (n : Nat) (x : String × ModelDetails)
    (h : x ∈ groupEvents dm ST uuid g n es) :
    ∃ e ∈ es, ∃ n', x ∈ entryEvents dm ST uuid g n' e := by
  induction es generalizing n with
  | nil => simp [groupEvents] at h
  | cons e rest ih =>
    simp only [groupEvents, List.mem_append] at h
    rcases h with h | h
    · exact ⟨e, List.mem_cons_self _ _, n, h⟩
    · obtain ⟨e', he', n', hx⟩ := ih _ h
      exact ⟨e', List.mem_cons_of_mem _ he', n', hx⟩

theorem groupEvents_contains (dm : GoMap (List String)) (ST : Int) (uuid : Nat → String)
    (g : String) (es : List ServiceModel) (n : Nat) (e : ServiceModel) (h : e ∈ es) :
    ∃ n', entryEvents dm ST uuid g n' e ⊆ groupEvents dm ST uuid g n es := by
  induction es generalizing n with
  | nil => exact absurd h (List.not_mem_nil _)
  | cons e' rest ih =>
    rcases List.mem_cons.mp h with h | h
    · subst h
      refine ⟨n, ?_⟩
      intro x hx
      simp only [groupEvents, List.mem_append]
      exact Or.inl hx
    · obtain ⟨n', hn'⟩ := ih (n + entryIDs dm ST g e') h
      refine ⟨n', ?_⟩
      intro x hx
      simp only [groupEvents, List.mem_append]
      exact Or.inr (hn' hx)

theorem mem_configEvents (dm : GoMap (List String)) (ST : Int) (uuid : Nat → String)
    (groups : List (String × List ServiceModel)) (n : Nat) (x : String × ModelDetails)
    (h : x ∈ configEvents dm ST uuid n groups) :
    ∃ grp ∈ groups, ∃ e ∈ grp.2, ∃ n', x ∈ entryEvents dm ST uuid grp.1 n' e := by
  induction groups generalizing n with
  | nil => simp [configEvents] at h
  | cons grp rest ih =>
    simp only [configEvents, List.mem_append] at h
    rcases h with h | h
    · obtain ⟨e, he, n', hx⟩ := mem_groupEvents dm ST uuid grp.1 grp.2 n x h
      exact ⟨grp, List.mem_cons_self _ _, e, he, n', hx⟩
    · obtain ⟨grp', hgrp', e, he, n', hx⟩ := ih _ h
      exact ⟨grp', List.mem_cons_of_mem _ hgrp', e, he, n', hx⟩

theorem configEvents_contains (dm : GoMap (List String)) (ST : Int) (uuid : Nat → String)
    (groups : List (String × List ServiceModel)) (n : Nat) (grp : String × List ServiceModel)
    (e : ServiceModel) (hgrp : grp ∈ groups) (he : e ∈ grp.2) :
    ∃ n', entryEvents dm ST uuid grp.1 n' e ⊆ configEvents dm ST uuid n groups := by
  induction groups generalizing n with
  | nil => exact absurd hgrp (List.not_mem_nil _)
  | cons grp' rest ih =>
    rcases List.mem_cons.mp hgrp with h | h
    · subst h
      obtain ⟨n', hn'⟩ := groupEvents_contains dm ST uuid grp.1 grp.2 n e he
      refine ⟨n', ?_⟩
      intro x hx
      simp only [configEvents, List.mem_append]
      exact Or.inl (hn' hx)
    · obtain ⟨n', hn'⟩ := ih (n + groupIDs dm ST grp'.1 grp'.2) h
      refine ⟨n', ?_⟩
      intro x hx
      simp only [configEvents, List.mem_append]
      exact Or.inr (hn' hx)

/-- Every Binding of the built index was appended for an enabled Provider Entry of the
configuration, in the plain-model loop or in the embedding loop of that entry. -/
theorem createModelToServiceMap_provenance (dm : GoMap (List String)) (ST : Int)
    (uuid : Nat → String) (config : Configuration) (N : String) (b : ModelDetails)
    (hb : b ∈ indexGet (createModelToServiceMap dm ST uuid config).modelToService N) :
    ∃ grp ∈ config.Services, ∃ e ∈ grp.2, e.Enabled = true ∧ ∃ i,
      (b = plainDetail uuid grp.1 (expandEntry dm ST grp.1 e) i ∧
        ∃ M ∈ (expandEntry dm ST grp.1 e).Models,
          N = M ∨ N ∈ mapKeys (expandEntry dm ST grp.1 e).ModelRedirect) ∨
      (b = embeddingDetail uuid grp.1 (expandEntry dm ST grp.1 e) i ∧
        ∃ M ∈ (expandEntry dm ST grp.1 e).EmbeddingModels,
          N = M ∨ N ∈ mapKeys (expandEntry dm ST grp.1 e).ModelRedirect) := by
  rw [createModelToServiceMap_index, mem_indexGet_replay_nil] at hb
  obtain ⟨grp, hgrp, e, he, n', hx⟩ := mem_configEvents dm ST uuid _ _ _ hb
  refine ⟨grp, hgrp, e, he, ?_⟩
  unfold entryEvents at hx
  by_cases hen : e.Enabled = true
  · refine ⟨hen, ?_⟩
    simp only [hen, if_true, List.mem_append] at hx
    rcases hx with hx | hx
    · obtain ⟨i, M, hM, hd⟩ := mem_loopEvents _ _ _ _ hx
      obtain ⟨h1, h2⟩ := (mem_detailEvents _ _ _).mp hd
      exact ⟨i, Or.inl ⟨h1, M, hM, h2⟩⟩
    · obtain ⟨i, M, hM, hd⟩ := mem_loopEvents _ _ _ _ hx
      obtain ⟨h1, h2⟩ := (mem_detailEvents _ _ _).mp hd
      exact ⟨i, Or.inr ⟨h1, M, hM, h2⟩⟩
  · simp [hen] at hx

/-- The plain-model loop of an enabled Provider Entry leaves one Binding under the
model name and under every key of the redirect table of the entry. -/
theorem createModelToServiceMap_plain_contribution (dm : GoMap (List String)) (ST : Int)
    (uuid : Nat → String) (config : Configuration) (grp : String × List ServiceModel)
    (e : ServiceModel) (M : String) (hgrp : grp ∈ config.Services) (he : e ∈ grp.2)
    (hen : e.Enabled = true) (hM : M ∈ (expandEntry dm ST grp.1 e).Models) :
    ∃ i,
      plainDetail uuid grp.1 (expandEntry dm ST grp.1 e) i
        ∈ indexGet (createModelToServiceMap dm ST uuid config).modelToService M ∧
      ∀ K ∈ mapKeys (expandEntry dm ST grp.1 e).ModelRedirect,
        plainDetail uuid grp.1 (expandEntry dm ST grp.1 e) i
          ∈ indexGet (createModelToServiceMap dm ST uuid config).modelToService K := by
  obtain ⟨n', hn'⟩ := configEvents_contains dm ST uuid config.Services 0 grp e hgrp he
  obtain ⟨i, hi⟩ := loopEvents_contains (plainDetail uuid grp.1 (expandEntry dm ST grp.1 e))
    (expandEntry dm ST grp.1 e).Models n' M hM
  have hsub : ∀ x ∈ detailEvents (plainDetail uuid grp.1 (expandEntry dm ST grp.1 e) i) M,
      x ∈ configEvents dm ST uuid 0 config.Services := by
    intro x hx
    apply hn'
    unfold entryEvents
    simp only [hen, if_true, List.mem_append]
    exact Or.inl (hi hx)
  refine ⟨i, ?_, ?_⟩
  · rw [createModelToServiceMap_index, mem_indexGet_replay_nil]
    exact hsub _ ((mem_detailEvents _ _ _).mpr ⟨rfl, Or.inl rfl⟩)
  · intro K hK
    rw [createModelToServiceMap_index, mem_indexGet_replay_nil]
    exact hsub _ ((mem_detailEvents _ _ _).mpr ⟨rfl, Or.inr hK⟩)

/-- The embedding loop of an enabled Provider Entry leaves one Binding under the
embedding model name and under every key of the redirect table of the entry. -/
theorem createModelToServiceMap_embedding_contribution (dm : GoMap (List String)) (ST : Int)
    (uuid : Nat → String) (config : Configuration) (grp : String × List ServiceModel)
    (e : ServiceModel) (M : String) (hgrp : grp ∈ config.Services) (he : e ∈ grp.2)
    (hen : e.Enabled = true) (hM : M ∈ (expandEntry dm ST grp.1 e).EmbeddingModels) :
    ∃ i,
      embeddingDetail uuid grp.1 (expandEntry dm ST grp.1 e) i
        ∈ indexGet (createModelToServiceMap dm ST uuid config).modelToService M ∧
      ∀ K ∈ mapKeys (expandEntry dm ST grp.1 e).ModelRedirect,
        embeddingDetail uuid grp.1 (expandEntry dm ST grp.1 e) i
          ∈ indexGet (createModelToServiceMap dm ST uuid config).modelToService K := by
  obtain ⟨n', hn'⟩ := configEvents_contains dm ST uuid config.Services 0 grp e hgrp he
  obtain ⟨i, hi⟩ := loopEvents_contains (embeddingDetail uuid grp.1 (expandEntry dm ST grp.1 e))
    (expandEntry dm ST grp.1 e).EmbeddingModels
    (n' + (expandEntry dm ST grp.1 e).Models.length) M hM
  have hsub : ∀ x ∈ detailEvents (embeddingDetail uuid grp.1 (expandEntry dm ST grp.1 e) i) M,
      x ∈ configEvents dm ST uuid 0 config.Services := by
    intro x hx
    apply hn'
    unfold entryEvents
    simp only [hen, if_true, List.mem_append]
    exact Or.inr (hi hx)
  refine ⟨i, ?_, ?_⟩
  · rw [createModelToServiceMap_index, mem_indexGet_replay_nil]
    exact hsub _ ((mem_detailEvents _ _ _).mpr ⟨rfl, Or.inl rfl⟩)
  · intro K hK
    rw [createModelToServiceMap_index, mem_indexGet_replay_nil]
    exact hsub _ ((mem_detailEvents _ _ _).mpr ⟨rfl, Or.inr hK⟩)

/-! ## The copy of the entry embedded into a Binding -/

theorem withDefaultTimeout_eq (ST : Int) (e : ServiceModel) :
    withDefaultTimeout ST e = { e with Timeout := if e.Timeout ≤ 0 then ST else e.Timeout } := by
  unfold withDefaultTimeout
  by_cases h : e.Timeout ≤ 0 <;> simp [h]

theorem expandEntry_of_models_ne_nil (dm : GoMap (List String)) (ST : Int) (g : String)
    (e : ServiceModel) (h : e.Models ≠ []) :
    expandEntry dm ST g e = { e with Timeout := if e.Timeout ≤ 0 then ST else e.Timeout } := by
  have hlen : ¬ e.Models.length = 0 := fun h0 => h (List.length_eq_zero.mp h0)
  unfold expandEntry withDefaultModels
  simp only [hlen, if_false]
  exact withDefaultTimeout_eq ST e

theorem expandEntry_of_default (dm : GoMap (List String)) (ST : Int) (g : String)
    (e : ServiceModel) (dmv : List String) (h : e.Models = []) (hdm : mapLookup dm g = some dmv) :
    expandEntry dm ST g e
      = { e with Models := dmv, Timeout := if e.Timeout ≤ 0 then ST else e.Timeout } := by
  unfold expandEntry withDefaultModels
  simp only [h, List.length_nil, if_true, hdm]
  exact withDefaultTimeout_eq ST _

theorem expandEntry_of_no_default (dm : GoMap (List String)) (ST : Int) (g : String)
    (e : ServiceModel) (h : e.Models = []) (hdm : mapLookup dm g = none) :
    expandEntry dm ST g e = { e with Timeout := if e.Timeout ≤ 0 then ST else e.Timeout } := by
  have hsame : withDefaultModels dm g e = e := by
    unfold withDefaultModels
    simp [h, hdm]
  unfold expandEntry
  rw [hsame]
  exact withDefaultTimeout_eq ST e

theorem withDefaultModels_fields (dm : GoMap (List String)) (g : String) (e : ServiceModel) :
    (withDefaultModels dm g e).Timeout = e.Timeout ∧
      (withDefaultModels dm g e).EmbeddingModels = e.EmbeddingModels ∧
      (withDefaultModels dm g e).ModelRedirect = e.ModelRedirect ∧
      (withDefaultModels dm g e).Enabled = e.Enabled ∧
      (withDefaultModels dm g e).ProviderNamespace = e.ProviderNamespace := by
  unfold withDefaultModels
  by_cases h : e.Models.length = 0
  · cases hdm : mapLookup dm g <;> simp [h]
  · simp [h]

theorem expandEntry_fields (dm : GoMap (List String)) (ST : Int) (g : String) (e : ServiceModel) :
    (expandEntry dm ST g e).Timeout = (if 0 < e.Timeout then e.Timeout else ST) ∧
      (expandEntry dm ST g e).EmbeddingModels = e.EmbeddingModels ∧
      (expandEntry dm ST g e).ModelRedirect = e.ModelRedirect ∧
      (expandEntry dm ST g e).Enabled = e.Enabled ∧
      (expandEntry dm ST g e).ProviderNamespace = e.ProviderNamespace := by
  obtain ⟨h1, h2, h3, h4, h5⟩ := withDefaultModels_fields dm g e
  unfold expandEntry
  rw [withDefaultTimeout_eq]
  refine ⟨?_, h2, h3, h4, h5⟩
  show (if (withDefaultModels dm g e).Timeout ≤ 0 then ST else (withDefaultModels dm g e).Timeout)
    = if 0 < e.Timeout then e.Timeout else ST
  rw [h1]
  by_cases h : e.Timeout ≤ 0
  · have h' : ¬ 0 < e.Timeout := by omega
    simp [h, h']
  · have h' : 0 < e.Timeout := by omega
    simp [h, h']

/-! ## Builds that differ in the identifiers only -/

theorem mapLookup_eraseIDs (idx : GoMap (List ModelDetails)) (k : String) :
    mapLookup (eraseIDs idx) k = (mapLookup idx k).map (List.map eraseID) := by
  induction idx with
  | nil => rfl
  | cons p rest ih =>
    obtain ⟨a, ds⟩ := p
    have hcons : eraseIDs ((a, ds) :: rest) = (a, ds.map eraseID) :: eraseIDs rest := rfl
    rw [hcons]
    by_cases h : a = k
    · simp [mapLookup, h]
    · simp [mapLookup, h, ih]

theorem indexGet_eraseIDs (idx : GoMap (List ModelDetails)) (k : String) :
    indexGet (eraseIDs idx) k = (indexGet idx k).map eraseID := by
  unfold indexGet
  rw [mapLookup_eraseIDs]
  cases mapLookup idx k <;> rfl

theorem mapKeys_eraseIDs (idx : GoMap (List ModelDetails)) :
    mapKeys (eraseIDs idx) = mapKeys idx := by
  simp [mapKeys, eraseIDs, List.map_map, Function.comp_def]

theorem eraseIDs_mapSet (idx : GoMap (List ModelDetails)) (k : String) (ds : List ModelDetails) :
    eraseIDs (mapSet idx k ds) = mapSet (eraseIDs idx) k (ds.map eraseID) := by
  induction idx with
  | nil => rfl
  | cons p rest ih =>
    obtain ⟨a, ds'⟩ := p
    have hcons : eraseIDs ((a, ds') :: rest) = (a, ds'.map eraseID) :: eraseIDs rest := rfl
    by_cases h : a = k
    · rw [hcons]
      simp only [mapSet, h, if_true]
      rfl
    · rw [hcons]
      simp only [mapSet, h, if_false]
      have hcons2 : eraseIDs ((a, ds') :: mapSet rest k ds)
          = (a, ds'.map eraseID) :: eraseIDs (mapSet rest k ds) := rfl
      rw [hcons2, ih]

theorem eraseIDs_appendDetail (idx : GoMap (List ModelDetails)) (k : String) (d : ModelDetails) :
    eraseIDs (appendDetail idx k d) = appendDetail (eraseIDs idx) k (eraseID d) := by
  unfold appendDetail
  rw [eraseIDs_mapSet, indexGet_eraseIDs, List.map_append]
  rfl

theorem eraseIDs_appendDetail_congr (idx idx' : GoMap (List ModelDetails)) (k : String)
    (d d' : ModelDetails) (hidx : eraseIDs idx = eraseIDs idx') (hd : eraseID d = eraseID d') :
    eraseIDs (appendDetail idx k d) = eraseIDs (appendDetail idx' k d') := by
  rw [eraseIDs_appendDetail, eraseIDs_appendDetail, hidx, hd]

theorem foldl_related {α σ : Type} (R : σ → σ → Prop) (f f' : σ → α → σ)
    (hstep : ∀ s s' x, R s s' → R (f s x) (f' s' x)) (xs : List α) (s s' : σ) (h : R s s') :
    R (xs.foldl f s) (xs.foldl f' s') := by
  induction xs generalizing s s' with
  | nil => exact h
  | cons x rest ih => exact ih _ _ (hstep s s' x h)

theorem eraseState_eq_iff (st st' : BuildState) :
    eraseState st = eraseState st' ↔
      eraseIDs st.modelToService = eraseIDs st'.modelToService ∧
        st.SupportModels = st'.SupportModels := by
  simp [eraseState, Prod.mk.injEq]

theorem redirectStep_eraseState (d d' : ModelDetails) (hd : eraseID d = eraseID d')
    (st st' : BuildState) (kv : String × String) (h : eraseState st = eraseState st') :
    eraseState (redirectStep d st kv) = eraseState (redirectStep d' st' kv) := by
  obtain ⟨h1, h2⟩ := (eraseState_eq_iff st st').mp h
  apply (eraseState_eq_iff _ _).mpr
  constructor
  · exact eraseIDs_appendDetail_congr _ _ _ _ _ h1 hd
  · show (if (mapLookup (mapSet st.SupportModels kv.1 kv.2) kv.2).isSome
        then mapDelete (mapSet st.SupportModels kv.1 kv.2) kv.2
        else mapSet st.SupportModels kv.1 kv.2)
      = (if (mapLookup (mapSet st'.SupportModels kv.1 kv.2) kv.2).isSome
        then mapDelete (mapSet st'.SupportModels kv.1 kv.2) kv.2
        else mapSet st'.SupportModels kv.1 kv.2)
    rw [h2]

theorem embeddingRedirectStep_eraseState (d d' : ModelDetails) (hd : eraseID d = eraseID d')
    (st st' : BuildState) (kv : String × String) (h : eraseState st = eraseState st') :
    eraseState (embeddingRedirectStep d st kv) = eraseState (embeddingRedirectStep d' st' kv) := by
  obtain ⟨h1, h2⟩ := (eraseState_eq_iff st st').mp h
  apply (eraseState_eq_iff _ _).mpr
  exact ⟨eraseIDs_appendDetail_congr _ _ _ _ _ h1 hd, h2⟩

theorem plainStep_eraseState (uuid uuid' : Nat → String) (g : String) (model : ServiceModel)
    (st st' : BuildState) (M : String) (h : eraseState st = eraseState st') :
    eraseState (plainStep uuid g model st M) = eraseState (plainStep uuid' g model st' M) := by
  obtain ⟨h1, h2⟩ := (eraseState_eq_iff st st').mp h
  have hinit : eraseState
        { modelToService := appendDetail st.modelToService M (plainDetail uuid g model st.nextID)
          SupportModels := mapSet st.SupportModels M M
          nextID := st.nextID + 1 }
      = eraseState
        { modelToService := appendDetail st'.modelToService M (plainDetail uuid' g model st'.nextID)
          SupportModels := mapSet st'.SupportModels M M
          nextID := st'.nextID + 1 } := by
    apply (eraseState_eq_iff _ _).mpr
    constructor
    · exact eraseIDs_appendDetail_congr _ _ _ _ _ h1 rfl
    · show mapSet st.SupportModels M M = mapSet st'.SupportModels M M
      rw [h2]
  exact foldl_related (fun s s' => eraseState s = eraseState s')
    (redirectStep (plainDetail uuid g model st.nextID))
    (redirectStep (plainDetail uuid' g model st'.nextID))
    (fun s s' kv hs => redirectStep_eraseState (plainDetail uuid g model st.nextID)
      (plainDetail uuid' g model st'.nextID) rfl s s' kv hs) model.ModelRedirect _ _ hinit

theorem embeddingStep_eraseState (uuid uuid' : Nat → String) (g : String) (model : ServiceModel)
    (st st' : BuildState) (M : String) (h : eraseState st = eraseState st') :
    eraseState (embeddingStep uuid g model st M)
      = eraseState (embeddingStep uuid' g model st' M) := by
  obtain ⟨h1, h2⟩ := (eraseState_eq_iff st st').mp h
  have hinit : eraseState
        { modelToService :=
            appendDetail st.modelToService M (embeddingDetail uuid g model st.nextID)
          SupportModels := st.SupportModels
          nextID := st.nextID + 1 }
      = eraseState
        { modelToService :=
            appendDetail st'.modelToService M (embeddingDetail uuid' g model st'.nextID)
          SupportModels := st'.SupportModels
          nextID := st'.nextID + 1 } := by
    apply (eraseState_eq_iff _ _).mpr
    exact ⟨eraseIDs_appendDetail_congr _ _ _ _ _ h1 rfl, h2⟩
  exact foldl_related (fun s s' => eraseState s = eraseState s')
    (embeddingRedirectStep (embeddingDetail uuid g model st.nextID))
    (embeddingRedirectStep (embeddingDetail uuid' g model st'.nextID))
    (fun s s' kv hs => embeddingRedirectStep_eraseState (embeddingDetail uuid g model st.nextID)
      (embeddingDetail uuid' g model st'.nextID) rfl s s' kv hs)
    model.ModelRedirect _ _ hinit

theorem entryStep_eraseState (dm : GoMap (List String)) (ST : Int) (uuid uuid' : Nat → String)
    (g : String) (st st' : BuildState) (e : ServiceModel) (h : eraseState st = eraseState st') :
    eraseState (entryStep dm ST uuid g st e) = eraseState (entryStep dm ST uuid' g st' e) := by
  unfold entryStep
  by_cases hen : e.Enabled = true
  · simp only [hen, if_true]
    apply foldl_related (fun s s' => eraseState s = eraseState s') _ _
      (fun s s' M hs => embeddingStep_eraseState uuid uuid' g _ s s' M hs)
    exact foldl_related (fun s s' => eraseState s = eraseState s') _ _
      (fun s s' M hs => plainStep_eraseState uuid uuid' g _ s s' M hs) _ _ _ h
  · simp only [hen]
    exact h

theorem serviceStep_eraseState (dm : GoMap (List String)) (ST : Int) (uuid uuid' : Nat → String)
    (st st' : BuildState) (grp : String × List ServiceModel)
    (h : eraseState st = eraseState st') :
    eraseState (serviceStep dm ST uuid st grp) = eraseState (serviceStep dm ST uuid' st' grp) := by
  unfold serviceStep
  exact foldl_related (fun s s' => eraseState s = eraseState s') _ _
    (fun s s' e hs => entryStep_eraseState dm ST uuid uuid' grp.1 s s' e hs) _ _ _ h

theorem createModelToServiceMap_eraseState (dm : GoMap (List String)) (ST : Int)
    (uuid uuid' : Nat → String) (config : Configuration) :
    eraseState (createModelToServiceMap dm ST uuid config)
      = eraseState (createModelToServiceMap dm ST uuid' config) := by
  unfold createModelToServiceMap
  exact foldl_related (fun s s' => eraseState s = eraseState s') _ _
    (fun s s' grp hs => serviceStep_eraseState dm ST uuid uuid' s s' grp hs) _ _ _ rfl

/-! ## Disabled entries -/

theorem entryStep_of_disabled (dm : GoMap (List String)) (ST : Int) (uuid : Nat → String)
    (g : String) (st : BuildState) (e : ServiceModel) (h : e.Enabled = false) :
    entryStep dm ST uuid g st e = st := by
  simp [entryStep, h]

theorem entry_foldl_filter (dm : GoMap (List String)) (ST : Int) (uuid : Nat → String)
    (g : String) (es : List ServiceModel) (st : BuildState) :
    (es.filter (fun e => e.Enabled)).foldl (entryStep dm ST uuid g) st
      = es.foldl (entryStep dm ST uuid g) st := by
  induction es generalizing st with
  | nil => rfl
  | cons e rest ih =>
    cases hen : e.Enabled
    · simp only [List.filter_cons, hen, List.foldl_cons]
      rw [entryStep_of_disabled dm ST uuid g st e hen]
      exact ih st
    · simp only [List.filter_cons, hen, if_true, List.foldl_cons]
      exact ih _

theorem createModelToServiceMap_dropDisabled_eq (dm : GoMap (List String)) (ST : Int)
    (uuid : Nat → String) (config : Configuration) :
    createModelToServiceMap dm ST uuid (dropDisabled config)
      = createModelToServiceMap dm ST uuid config := by
  unfold createModelToServiceMap dropDisabled
  simp only [List.foldl_map]
  congr 1
  funext st grp
  unfold serviceStep
  exact entry_foldl_filter dm ST uuid grp.1 grp.2 st

theorem entry_foldl_of_disabled (dm : GoMap (List String)) (ST : Int) (uuid : Nat → String)
    (g : String) (es : List ServiceModel) (st : BuildState)
    (h : ∀ e ∈ es, e.Enabled = false) :
    es.foldl (entryStep dm ST uuid g) st = st := by
  induction es generalizing st with
  | nil => rfl
  | cons e rest ih =>
    simp only [List.foldl_cons]
    rw [entryStep_of_disabled dm ST uuid g st e (h e (List.mem_cons_self _ _))]
    exact ih st (fun e' he' => h e' (List.mem_cons_of_mem _ he'))

theorem service_foldl_of_disabled (dm : GoMap (List String)) (ST : Int) (uuid : Nat → String)
    (groups : List (String × List ServiceModel)) (st : BuildState)
    (h : ∀ grp ∈ groups, ∀ e ∈ grp.2, e.Enabled = false) :
    groups.foldl (serviceStep dm ST uuid) st = st := by
  induction groups generalizing st with
  | nil => rfl
  | cons grp rest ih =>
    simp only [List.foldl_cons]
    have hstep : serviceStep dm ST uuid st grp = st :=
      entry_foldl_of_disabled dm ST uuid grp.1 grp.2 st (h grp (List.mem_cons_self _ _))
    rw [hstep]
    exact ih st (fun grp' hgrp' => h grp' (List.mem_cons_of_mem _ hgrp'))

/-! ## Building the index: the claims -/

/-- C7: for every enabled Provider Entry `e` listed under a provider group `g` and
every name `M` of the plain model list of `e`, the built index has `M` as a key and
holds under `M` a Binding whose `ServiceName` is `g`, whose namespace tag is the
`provider_namespace` of `e`, and whose embedded entry is `e` with the timeout
default applied. -/
theorem createModelToServiceMap_plain_binding (DefaultSupportModelMap : GoMap (List String))
    (ServiceTimeOut : Int) (uuid : Nat → String) (config : Configuration) (g : String)
    (es : List ServiceModel) (e : ServiceModel) (M : String)
    (hg : (g, es) ∈ config.Services) (he : e ∈ es) (hen : e.Enabled = true)
    (hM : M ∈ e.Models) :
    M ∈ mapKeys (createModelToServiceMap DefaultSupportModelMap ServiceTimeOut uuid
      config).modelToService ∧
    ∃ b ∈ indexGet (createModelToServiceMap DefaultSupportModelMap ServiceTimeOut uuid
        config).modelToService M,
      b.ServiceName = g ∧ b.Namespace = e.ProviderNamespace ∧
      b.ServiceModel
        = { e with Timeout := if e.Timeout ≤ 0 then ServiceTimeOut else e.Timeout } := by
  have hne : e.Models ≠ [] := List.ne_nil_of_mem hM
  have hexp := expandEntry_of_models_ne_nil DefaultSupportModelMap ServiceTimeOut g e hne
  have hM' : M ∈ (expandEntry DefaultSupportModelMap ServiceTimeOut g e).Models := by
    rw [hexp]
    exact hM
  obtain ⟨i, hi, _⟩ := createModelToServiceMap_plain_contribution DefaultSupportModelMap
    ServiceTimeOut uuid config (g, es) e M hg he hen hM'
  refine ⟨mem_mapKeys_of_mem_indexGet _ _ _ hi, _, hi, rfl, ?_, ?_⟩
  · show (expandEntry DefaultSupportModelMap ServiceTimeOut g e).ProviderNamespace
      = e.ProviderNamespace
    rw [hexp]
  · show expandEntry DefaultSupportModelMap ServiceTimeOut g e = _
    exact hexp

/-- Witness for C7: the configuration of `TestApplyConfiguration`. -/
theorem createModelToServiceMap_plain_binding_witness :
    "test-model" ∈ mapKeys (createModelToServiceMap [] 120 sampleUUID testConfig).modelToService ∧
    ∃ b ∈ indexGet (createModelToServiceMap [] 120 sampleUUID testConfig).modelToService
        "test-model",
      b.ServiceName = "test_service" ∧ b.Namespace = testEntry.ProviderNamespace ∧
      b.ServiceModel
        = { testEntry with Timeout := if testEntry.Timeout ≤ 0 then 120 else testEntry.Timeout } :=
  createModelToServiceMap_plain_binding [] 120 sampleUUID testConfig "test_service" [testEntry]
    testEntry "test-model" (List.mem_cons_self _ _) (List.mem_cons_self _ _) rfl
    (List.mem_cons_self _ _)

/-- C8 as stated fails: the group `svc-a` is no key of the default model table, its
only entry is enabled with an empty plain model list, and the built index is empty,
so the entry contributes no model name at all. -/
theorem createModelToServiceMap_no_default_list :
    ("svc-a", [{ zeroEntry with Enabled := true }]) ∈ emptyModelsConfig.Services ∧
      ({ zeroEntry with Enabled := true } : ServiceModel).Enabled = true ∧
      ({ zeroEntry with Enabled := true } : ServiceModel).Models = [] ∧
      (createModelToServiceMap [("openai", ["gpt-4o"])] 120 sampleUUID
        emptyModelsConfig).modelToService = [] := by
  refine ⟨List.mem_cons_self _ _, rfl, rfl, ?_⟩
  decide

/-- C8 amended: for an enabled Provider Entry `e` with an empty plain model list under
group `g`: when `g` is a key of the default model table, the plain-model loop runs
over the default list, the index holds a Binding of the entry under every name of
that list, and every Binding of the entry sits under a name of the default list, an
embedding model name or a redirect key; when `g` is no key of the table, the
plain-model loop runs over no name, and a Binding of the entry can only sit under an
embedding model name or, when there is one, under a redirect key. -/
theorem createModelToServiceMap_default_models (DefaultSupportModelMap : GoMap (List String))
    (ServiceTimeOut : Int) (uuid : Nat → String) (config : Configuration) (g : String)
    (es : List ServiceModel) (e : ServiceModel)
    (hg : (g, es) ∈ config.Services) (he : e ∈ es) (hen : e.Enabled = true)
    (hempty : e.Models = []) :
    (∀ dmv, mapLookup DefaultSupportModelMap g = some dmv →
      (expandEntry DefaultSupportModelMap ServiceTimeOut g e).Models = dmv ∧
      (∀ M ∈ dmv, ∃ b ∈ indexGet (createModelToServiceMap DefaultSupportModelMap ServiceTimeOut
          uuid config).modelToService M,
        b.ServiceName = g ∧ b.Namespace = e.ProviderNamespace ∧
        b.ServiceModel = { e with
          Models := dmv, Timeout := if e.Timeout ≤ 0 then ServiceTimeOut else e.Timeout }) ∧
      (∀ N b, b ∈ indexGet (createModelToServiceMap DefaultSupportModelMap ServiceTimeOut
          uuid config).modelToService N →
        b.ServiceModel = { e with
          Models := dmv, Timeout := if e.Timeout ≤ 0 then ServiceTimeOut else e.Timeout } →
        N ∈ dmv ∨ N ∈ e.EmbeddingModels ∨ N ∈ mapKeys e.ModelRedirect)) ∧
    (g ∉ mapKeys DefaultSupportModelMap →
      (expandEntry DefaultSupportModelMap ServiceTimeOut g e).Models = [] ∧
      (∀ N b, b ∈ indexGet (createModelToServiceMap DefaultSupportModelMap ServiceTimeOut
          uuid config).modelToService N →
        b.ServiceModel
          = { e with Timeout := if e.Timeout ≤ 0 then ServiceTimeOut else e.Timeout } →
        N ∈ e.EmbeddingModels ∨ (e.EmbeddingModels ≠ [] ∧ N ∈ mapKeys e.ModelRedirect))) := by
  constructor
  · intro dmv hdm
    have hexp := expandEntry_of_default DefaultSupportModelMap ServiceTimeOut g e dmv hempty hdm
    refine ⟨by rw [hexp], ?_, ?_⟩
    · intro M hM
      have hM' : M ∈ (expandEntry DefaultSupportModelMap ServiceTimeOut g e).Models := by
        rw [hexp]
        exact hM
      obtain ⟨i, hi, _⟩ := createModelToServiceMap_plain_contribution DefaultSupportModelMap
        ServiceTimeOut uuid config (g, es) e M hg he hen hM'
      refine ⟨_, hi, rfl, ?_, ?_⟩
      · show (expandEntry DefaultSupportModelMap ServiceTimeOut g e).ProviderNamespace
          = e.ProviderNamespace
        rw [hexp]
      · show expandEntry DefaultSupportModelMap ServiceTimeOut g e = _
        exact hexp
    · intro N b hb hfields
      obtain ⟨grp, _, e', _, _, i, h | h⟩ := createModelToServiceMap_provenance
        DefaultSupportModelMap ServiceTimeOut uuid config N b hb
      · obtain ⟨hb', M, hM, hN⟩ := h
        have hsm : expandEntry DefaultSupportModelMap ServiceTimeOut grp.1 e' = b.ServiceModel := by
          rw [hb']
          rfl
        rw [hsm, hfields] at hM hN
        rcases hN with hN | hN
        · exact Or.inl (hN ▸ hM)
        · exact Or.inr (Or.inr hN)
      · obtain ⟨hb', M, hM, hN⟩ := h
        have hsm : expandEntry DefaultSupportModelMap ServiceTimeOut grp.1 e' = b.ServiceModel := by
          rw [hb']
          rfl
        rw [hsm, hfields] at hM hN
        rcases hN with hN | hN
        · exact Or.inr (Or.inl (hN ▸ hM))
        · exact Or.inr (Or.inr hN)
  · intro hk
    have hdm := (mapLookup_eq_none_iff DefaultSupportModelMap g).mpr hk
    have hexp := expandEntry_of_no_default DefaultSupportModelMap ServiceTimeOut g e hempty hdm
    refine ⟨by rw [hexp]; exact hempty, ?_⟩
    intro N b hb hfields
    obtain ⟨grp, _, e', _, _, i, h | h⟩ := createModelToServiceMap_provenance
      DefaultSupportModelMap ServiceTimeOut uuid config N b hb
    · obtain ⟨hb', M, hM, _⟩ := h
      have hsm : expandEntry DefaultSupportModelMap ServiceTimeOut grp.1 e' = b.ServiceModel := by
        rw [hb']
        rfl
      rw [hsm, hfields] at hM
      have hM2 : M ∈ e.Models := hM
      rw [hempty] at hM2
      exact absurd hM2 (List.not_mem_nil _)
    · obtain ⟨hb', M, hM, hN⟩ := h
      have hsm : expandEntry DefaultSupportModelMap ServiceTimeOut grp.1 e' = b.ServiceModel := by
        rw [hb']
        rfl
      rw [hsm, hfields] at hM hN
      have hM2 : M ∈ e.EmbeddingModels := hM
      rcases hN with hN | hN
      · exact Or.inl (hN ▸ hM2)
      · exact Or.inr ⟨List.ne_nil_of_mem hM2, hN⟩

/-- Witness for C8 amended: the group `svc-a` has the default list `d1`, `d2`. -/
theorem createModelToServiceMap_default_models_witness :
    ∃ b ∈ indexGet (createModelToServiceMap [("svc-a", ["d1", "d2"])] 120 sampleUUID
        emptyModelsConfig).modelToService "d2",
      b.ServiceName = "svc-a" ∧ b.Namespace = "" ∧
      b.ServiceModel = { zeroEntry with Enabled := true, Models := ["d1", "d2"], Timeout := 120 } :=
  ((createModelToServiceMap_default_models [("svc-a", ["d1", "d2"])] 120 sampleUUID
    emptyModelsConfig "svc-a" [{ zeroEntry with Enabled := true }] { zeroEntry with Enabled := true }
    (List.mem_cons_self _ _) (List.mem_cons_self _ _) rfl rfl).1 ["d1", "d2"] rfl).2.1 "d2"
    (List.mem_cons_of_mem _ (List.mem_cons_self _ _))

/-- C9: every Binding of the built index, under whatever key, embeds an enabled
Provider Entry of the configuration with the timeout of that entry when it is
positive and the system default timeout otherwise; with a positive system default no
Binding carries a timeout that is zero or negative. -/
theorem createModelToServiceMap_timeout (DefaultSupportModelMap : GoMap (List String))
    (ServiceTimeOut : Int) (uuid : Nat → String) (config : Configuration) (N : String)
    (b : ModelDetails)
    (hb : b ∈ indexGet (createModelToServiceMap DefaultSupportModelMap ServiceTimeOut uuid
      config).modelToService N) :
    (∃ grp ∈ config.Services, ∃ e ∈ grp.2, e.Enabled = true ∧ b.ServiceName = grp.1 ∧
      b.ServiceModel = expandEntry DefaultSupportModelMap ServiceTimeOut grp.1 e ∧
      b.ServiceModel.Timeout = (if 0 < e.Timeout then e.Timeout else ServiceTimeOut)) ∧
    (0 < ServiceTimeOut → 0 < b.ServiceModel.Timeout) := by
  obtain ⟨grp, hgrp, e, he, hen, i, h⟩ := createModelToServiceMap_provenance
    DefaultSupportModelMap ServiceTimeOut uuid config N b hb
  have hsm : b.ServiceModel = expandEntry DefaultSupportModelMap ServiceTimeOut grp.1 e ∧
      b.ServiceName = grp.1 := by
    rcases h with ⟨hb', _⟩ | ⟨hb', _⟩
    · rw [hb']
      exact ⟨rfl, rfl⟩
    · rw [hb']
      exact ⟨rfl, rfl⟩
  have ht : b.ServiceModel.Timeout = (if 0 < e.Timeout then e.Timeout else ServiceTimeOut) := by
    rw [hsm.1]
    exact (expandEntry_fields DefaultSupportModelMap ServiceTimeOut grp.1 e).1
  refine ⟨⟨grp, hgrp, e, he, hen, hsm.2, hsm.1, ht⟩, ?_⟩
  intro hST
  rw [ht]
  by_cases hpos : 0 < e.Timeout
  · simp only [hpos, if_true]
  · simp only [hpos, if_false]
    exact hST

/-- Witness for C9: the entry of `TestApplyConfiguration` declares no timeout, and
its Binding under `test-model` carries the system default. -/
theorem createModelToServiceMap_timeout_witness :
    (plainDetail sampleUUID "test_service" { testEntry with Timeout := 120 } 0).ServiceModel.Timeout
        = 120 ∧
      (0 : Int) < (plainDetail sampleUUID "test_service"
        { testEntry with Timeout := 120 } 0).ServiceModel.Timeout :=
  have h := createModelToServiceMap_timeout [] 120 sampleUUID testConfig "test-model"
    (plainDetail sampleUUID "test_service" { testEntry with Timeout := 120 } 0) (by decide)
  ⟨rfl, h.2 (by decide)⟩

/-- C10: the index and `SupportModels` built from a configuration have the same keys
and, with the identifiers blanked, the same Bindings under every key as those built,
with any other identifier stream, from the configuration with every disabled
Provider Entry deleted; when every entry is disabled, all of them are empty. -/
theorem createModelToServiceMap_disabled_contribute_nothing
    (DefaultSupportModelMap : GoMap (List String)) (ServiceTimeOut : Int)
    (uuid uuid' : Nat → String) (config : Configuration) :
    mapKeys (createModelToServiceMap DefaultSupportModelMap ServiceTimeOut uuid
        config).modelToService
      = mapKeys (createModelToServiceMap DefaultSupportModelMap ServiceTimeOut uuid'
        (dropDisabled config)).modelToService ∧
    (∀ N,
      (indexGet (createModelToServiceMap DefaultSupportModelMap ServiceTimeOut uuid
          config).modelToService N).map eraseID
        = (indexGet (createModelToServiceMap DefaultSupportModelMap ServiceTimeOut uuid'
          (dropDisabled config)).modelToService N).map eraseID) ∧
    (createModelToServiceMap DefaultSupportModelMap ServiceTimeOut uuid config).SupportModels
      = (createModelToServiceMap DefaultSupportModelMap ServiceTimeOut uuid'
        (dropDisabled config)).SupportModels ∧
    ((∀ grp ∈ config.Services, ∀ e ∈ grp.2, e.Enabled = false) →
      (createModelToServiceMap DefaultSupportModelMap ServiceTimeOut uuid
        config).modelToService = [] ∧
      (createModelToServiceMap DefaultSupportModelMap ServiceTimeOut uuid
        config).SupportModels = [] ∧
      (createModelToServiceMap DefaultSupportModelMap ServiceTimeOut uuid'
        (dropDisabled config)).modelToService = [] ∧
      (createModelToServiceMap DefaultSupportModelMap ServiceTimeOut uuid'
        (dropDisabled config)).SupportModels = []) := by
  have hdrop := createModelToServiceMap_dropDisabled_eq DefaultSupportModelMap ServiceTimeOut
    uuid' config
  have hsame := createModelToServiceMap_eraseState DefaultSupportModelMap ServiceTimeOut
    uuid uuid' config
  rw [hdrop]
  obtain ⟨h1, h2⟩ := (eraseState_eq_iff _ _).mp hsame
  refine ⟨?_, ?_, h2, ?_⟩
  · rw [← mapKeys_eraseIDs, h1, mapKeys_eraseIDs]
  · intro N
    rw [← indexGet_eraseIDs, h1, indexGet_eraseIDs]
  · intro hall
    have hA : createModelToServiceMap DefaultSupportModelMap ServiceTimeOut uuid config
        = { modelToService := [], SupportModels := [], nextID := 0 } :=
      service_foldl_of_disabled DefaultSupportModelMap ServiceTimeOut uuid config.Services _ hall
    have hB : createModelToServiceMap DefaultSupportModelMap ServiceTimeOut uuid' config
        = { modelToService := [], SupportModels := [], nextID := 0 } :=
      service_foldl_of_disabled DefaultSupportModelMap ServiceTimeOut uuid' config.Services _ hall
    rw [hA, hB]
    exact ⟨rfl, rfl, rfl, rfl⟩

/-! ## Multi-content patterns: the claim -/

theorem HasPrefix_iff (s stem : String) :
    HasPrefix s stem = true ↔ ∃ rest : String, s = stem ++ rest := by
  unfold HasPrefix
  rw [List.isPrefixOf_iff_prefix]
  constructor
  · rintro ⟨t, ht⟩
    refine ⟨String.mk t, String.ext ?_⟩
    rw [String.data_append, ← ht]
  · rintro ⟨rest, hrest⟩
    refine ⟨rest.data, ?_⟩
    rw [hrest, String.data_append]

theorem HasSuffix_iff (s tail : String) :
    HasSuffix s tail = true ↔ ∃ stem : String, s = stem ++ tail := by
  unfold HasSuffix
  rw [List.isSuffixOf_iff_suffix]
  constructor
  · rintro ⟨t, ht⟩
    refine ⟨String.mk t, String.ext ?_⟩
    rw [String.data_append, ← ht]
  · rintro ⟨stem, hstem⟩
    refine ⟨stem.data, ?_⟩
    rw [hstem, String.data_append]

theorem TrimSuffix_append (stem tail : String) : TrimSuffix (stem ++ tail) tail = stem := by
  have hsuf : HasSuffix (stem ++ tail) tail = true := (HasSuffix_iff _ _).mpr ⟨stem, rfl⟩
  unfold TrimSuffix
  simp only [hsuf, if_true]
  apply String.ext
  show List.take ((stem ++ tail).data.length - tail.data.length) (stem ++ tail).data = stem.data
  rw [String.data_append, List.length_append, Nat.add_sub_cancel]
  exact List.take_left _ _

theorem append_star_cancel (a b : String) (h : a ++ "*" = b ++ "*") : a = b := by
  apply String.ext
  have hd : (a ++ "*").data = (b ++ "*").data := by rw [h]
  rw [String.data_append, String.data_append] at hd
  exact List.append_cancel_right hd

/-- C18: `IsSupportMultiContent` is true exactly when some entry of the pattern list
equals the model name, or ends with `*` and the model name starts with the entry
minus that one trailing `*`. -/
theorem IsSupportMultiContent_iff (L : List String) (m : String) :
    IsSupportMultiContent L m = true ↔
      ∃ p ∈ L, p = m ∨ ∃ stem rest : String, p = stem ++ "*" ∧ m = stem ++ rest := by
  induction L with
  | nil => simp [IsSupportMultiContent]
  | cons item tl ih =>
    by_cases hsuf : HasSuffix item "*" = true
    · obtain ⟨stem, hstem⟩ := (HasSuffix_iff item "*").mp hsuf
      have htrim : TrimSuffix item "*" = stem := by
        rw [hstem]
        exact TrimSuffix_append stem "*"
      by_cases hpre : HasPrefix m stem = true
      · obtain ⟨rest, hrest⟩ := (HasPrefix_iff m stem).mp hpre
        have hval : IsSupportMultiContent (item :: tl) m = true := by
          simp only [IsSupportMultiContent, hsuf, htrim, hpre, if_true]
        rw [hval]
        exact ⟨fun _ => ⟨item, List.mem_cons_self _ _, Or.inr ⟨stem, rest, hstem, hrest⟩⟩,
          fun _ => rfl⟩
      · have hval : IsSupportMultiContent (item :: tl) m = IsSupportMultiContent tl m := by
          simp only [IsSupportMultiContent, hsuf, htrim, hpre, if_true]
          simp
        rw [hval, ih]
        constructor
        · rintro ⟨p, hp, h⟩
          exact ⟨p, List.mem_cons_of_mem _ hp, h⟩
        · rintro ⟨p, hp, h⟩
          rcases List.mem_cons.mp hp with hp | hp
          · exfalso
            subst hp
            rcases h with h | ⟨stem', rest, h1, h2⟩
            · exact hpre ((HasPrefix_iff m stem).mpr ⟨"*", by rw [← h, hstem]⟩)
            · have hs : stem = stem' := append_star_cancel _ _ (hstem.symm.trans h1)
              exact hpre ((HasPrefix_iff m stem).mpr ⟨rest, by rw [hs]; exact h2⟩)
          · exact ⟨p, hp, h⟩
    · by_cases heq : item = m
      · have hval : IsSupportMultiContent (item :: tl) m = true := by
          unfold IsSupportMultiContent
          rw [if_neg hsuf, if_pos heq]
        rw [hval]
        exact ⟨fun _ => ⟨item, List.mem_cons_self _ _, Or.inl heq⟩, fun _ => rfl⟩
      · have hval : IsSupportMultiContent (item :: tl) m = IsSupportMultiContent tl m := by
          conv_lhs => unfold IsSupportMultiContent
          rw [if_neg hsuf, if_neg heq]
        rw [hval, ih]
        constructor
        · rintro ⟨p, hp, h⟩
          exact ⟨p, List.mem_cons_of_mem _ hp, h⟩
        · rintro ⟨p, hp, h⟩
          rcases List.mem_cons.mp hp with hp | hp
          · exfalso
            subst hp
            rcases h with h | ⟨stem', rest, h1, _⟩
            · exact heq h
            · exact hsuf ((HasSuffix_iff p "*").mpr ⟨stem', h1⟩)
          · exact ⟨p, hp, h⟩

/-! ## Waiting for the file: the claim -/

theorem lt_ticksBeforeDeadline_iff (maxWaitTime : Int) (k : Nat) :
    k < ticksBeforeDeadline maxWaitTime ↔ (((k + 1) * tickInterval : Nat) : Int) < maxWaitTime := by
  have htick : 0 < tickInterval := by decide
  unfold ticksBeforeDeadline
  by_cases hM : maxWaitTime ≤ 0
  · simp only [hM, if_true]
    constructor
    · intro h
      exact absurd h (Nat.not_lt_zero k)
    · intro h
      exfalso
      have hpos : (0 : Int) ≤ (((k + 1) * tickInterval : Nat) : Int) := Int.ofNat_nonneg _
      omega
  · simp only [hM, if_false]
    have hnat : ((maxWaitTime.toNat : Nat) : Int) = maxWaitTime := Int.toNat_of_nonneg (by omega)
    rw [Nat.lt_iff_add_one_le, Nat.le_div_iff_mul_le htick]
    constructor
    · intro h
      omega
    · intro h
      omega

theorem waitLoop_success (filePath : String) (openOK : Nat → Bool) (maxWaitTime : Int)
    (remaining k0 : Nat) (h : ∃ j, j < remaining ∧ openOK (k0 + j) = true) :
    (waitLoop filePath openOK maxWaitTime remaining k0).1 = none := by
  induction remaining generalizing k0 with
  | zero =>
    obtain ⟨j, hj, _⟩ := h
    exact absurd hj (Nat.not_lt_zero j)
  | succ r ih =>
    unfold waitLoop
    by_cases hk : openOK k0 = true
    · simp only [hk, if_true]
    · simp only [hk]
      apply ih
      obtain ⟨j, hj, hopen⟩ := h
      cases j with
      | zero => exact absurd hopen hk
      | succ j' =>
        refine ⟨j', by omega, ?_⟩
        have heq : k0 + 1 + j' = k0 + (j' + 1) := by omega
        rw [heq]
        exact hopen

theorem waitLoop_timeout (filePath : String) (openOK : Nat → Bool) (maxWaitTime : Int)
    (remaining k0 : Nat) (h : ∀ j, j < remaining → openOK (k0 + j) = false) :
    waitLoop filePath openOK maxWaitTime remaining k0
      = (some (errWaitTimeout filePath), max maxWaitTime 0) := by
  induction remaining generalizing k0 with
  | zero => rfl
  | succ r ih =>
    unfold waitLoop
    have hk : openOK k0 = false := h 0 (Nat.succ_pos r)
    simp only [hk]
    apply ih
    intro j hj
    have heq : k0 + 1 + j = k0 + (j + 1) := by omega
    rw [heq]
    exact h (j + 1) (by omega)

theorem waitLoop_time (filePath : String) (openOK : Nat → Bool) (maxWaitTime : Int)
    (remaining k0 : Nat) :
    (waitLoop filePath openOK maxWaitTime remaining k0).2
      ≤ max (max maxWaitTime 0) ((((k0 + remaining) * tickInterval : Nat)) : Int) := by
  induction remaining generalizing k0 with
  | zero =>
    unfold waitLoop
    exact le_max_left _ _
  | succ r ih =>
    unfold waitLoop
    by_cases hk : openOK k0 = true
    · simp only [hk, if_true]
      apply le_max_of_le_right
      have hle : (k0 + 1) * tickInterval ≤ (k0 + (r + 1)) * tickInterval :=
        Nat.mul_le_mul_right _ (by omega)
      exact Int.ofNat_le.mpr hle
    · simp only [hk]
      have h := ih (k0 + 1)
      have heq : k0 + 1 + r = k0 + (r + 1) := by omega
      rw [heq] at h
      exact h

/-- C19: `waitForFileReadable` returns no error when the open of some tick that comes
before the deadline succeeds, returns the timeout error, which ends with the path,
when the open of every such tick fails, and in every case returns, at a time that is
at most the maximum wait (at once when the maximum wait is not positive). -/
theorem waitForFileReadable_spec (openOK : Nat → Bool) (filePath : String) (maxWaitTime : Int) :
    ((∃ k : Nat, (((k + 1) * tickInterval : Nat) : Int) < maxWaitTime ∧ openOK k = true) →
      (waitForFileReadable openOK filePath maxWaitTime).1 = none) ∧
    ((∀ k : Nat, (((k + 1) * tickInterval : Nat) : Int) < maxWaitTime → openOK k = false) →
      (waitForFileReadable openOK filePath maxWaitTime).1
        = some ("timeout waiting for file to be readable: " ++ filePath)) ∧
    (waitForFileReadable openOK filePath maxWaitTime).2 ≤ max maxWaitTime 0 := by
  refine ⟨?_, ?_, ?_⟩
  · rintro ⟨k, hk, hopen⟩
    apply waitLoop_success
    refine ⟨k, (lt_ticksBeforeDeadline_iff maxWaitTime k).mpr hk, ?_⟩
    rw [Nat.zero_add]
    exact hopen
  · intro hall
    unfold waitForFileReadable
    rw [waitLoop_timeout]
    · rfl
    · intro j hj
      rw [Nat.zero_add]
      exact hall j ((lt_ticksBeforeDeadline_iff maxWaitTime j).mp hj)
  · have h := waitLoop_time filePath openOK maxWaitTime (ticksBeforeDeadline maxWaitTime) 0
    rw [Nat.zero_add] at h
    have hbound : (((ticksBeforeDeadline maxWaitTime * tickInterval : Nat)) : Int)
        ≤ max maxWaitTime 0 := by
      cases hn : ticksBeforeDeadline maxWaitTime with
      | zero =>
        rw [Nat.zero_mul]
        exact le_max_right _ _
      | succ n =>
        have hlt : n < ticksBeforeDeadline maxWaitTime := by omega
        have := (lt_ticksBeforeDeadline_iff maxWaitTime n).mp hlt
        exact le_max_of_le_left (le_of_lt this)
    exact le_trans h (max_le (le_refl _) hbound)

/-- The two tests of `waitForFileReadable`: a readable file with a wait of five
seconds, and a file that never opens with a wait of one second. -/
theorem waitForFileReadable_tests :
    (waitForFileReadable (fun _ => true) "test_config.json" (5 * 1000000000)).1 = none ∧
    (waitForFileReadable (fun _ => false) "nonexistent_file.json" (1 * 1000000000)).1
      = some "timeout waiting for file to be readable: nonexistent_file.json" := by
  constructor
  · decide
  · decide

/-! ## The configuration store: the claims -/

theorem runCallbacks_eq (callbacks : List String) (s : Store) :
    runCallbacks callbacks s
      = { s with trace := s.trace ++ callbacks.map StoreEvent.called } := by
  induction callbacks generalizing s with
  | nil => simp [runCallbacks]
  | cons cb rest ih =>
    have hstep : runCallbacks (cb :: rest) s
        = runCallbacks rest { s with trace := s.trace ++ [StoreEvent.called cb] } := rfl
    rw [hstep, ih]
    simp

theorem register_foldl (callbacks : List String) (s : Store) :
    callbacks.foldl (fun st callback => RegisterConfigChangeCallback callback st) s
      = { s with configChangeCallbacks := s.configChangeCallbacks ++ callbacks } := by
  induction callbacks generalizing s with
  | nil => simp
  | cons cb rest ih =>
    simp only [List.foldl_cons]
    rw [ih]
    simp [RegisterConfigChangeCallback]

/-- C15 as stated fails in its last part: `InitConfig` stops at a read error after it
has created the viper instance, so no configuration was ever loaded; a later
`ReloadConfig` whose read and decode succeed returns no error and installs the
configuration. -/
theorem ReloadConfig_after_failed_init :
    (InitConfig [] 120 sampleUUID (sampleEnv (some "unexpected end of JSON input")
        (Except.error "")) "config.json" initialStore).2
      = some "unexpected end of JSON input" ∧
    (InitConfig [] 120 sampleUUID (sampleEnv (some "unexpected end of JSON input")
        (Except.error "")) "config.json" initialStore).1.GSOAConf = none ∧
    (InitConfig [] 120 sampleUUID (sampleEnv (some "unexpected end of JSON input")
        (Except.error "")) "config.json" initialStore).1.trace = [] ∧
    (ReloadConfig [] 120 sampleUUID none (Except.ok testConfig)
      (InitConfig [] 120 sampleUUID (sampleEnv (some "unexpected end of JSON input")
        (Except.error "")) "config.json" initialStore).1).2 = none ∧
    (ReloadConfig [] 120 sampleUUID none (Except.ok testConfig)
      (InitConfig [] 120 sampleUUID (sampleEnv (some "unexpected end of JSON input")
        (Except.error "")) "config.json" initialStore).1).1.GSOAConf = some testConfig := by
  refine ⟨?_, ?_, ?_, ?_, ?_⟩ <;> decide

/-- C15 amended: when the decode fails in `onConfigChange`, or the read or the decode
fails in `ReloadConfig`, the store, its trace included, is what it was, so no part of
the live tuple changes and no callback is called; `ReloadConfig` returns an error in
these cases, and it returns an error and changes nothing when the viper instance was
never created. -/
theorem reload_failure_keeps_store (DefaultSupportModelMap : GoMap (List String))
    (ServiceTimeOut : Int) (uuid : Nat → String) (s : Store) (err : String) :
    onConfigChange DefaultSupportModelMap ServiceTimeOut uuid (Except.error err) s = s ∧
    (s.viperInitialized = true → ∀ decode,
      ReloadConfig DefaultSupportModelMap ServiceTimeOut uuid (some err) decode s
        = (s, some ("failed to read config file: " ++ err))) ∧
    (s.viperInitialized = true →
      ReloadConfig DefaultSupportModelMap ServiceTimeOut uuid none (Except.error err) s
        = (s, some ("failed to load configuration: failed to unmarshal config: " ++ err))) ∧
    (s.viperInitialized = false → ∀ readInConfig decode,
      ReloadConfig DefaultSupportModelMap ServiceTimeOut uuid readInConfig decode s
        = (s, some "viper not initialized")) := by
  refine ⟨?_, ?_, ?_, ?_⟩
  · simp [onConfigChange, loadConfiguration]
  · intro hv decode
    simp [ReloadConfig, hv]
  · intro hv
    have hmsg : "failed to load configuration: " ++ ("failed to unmarshal config: " ++ err)
        = "failed to load configuration: failed to unmarshal config: " ++ err := by
      rw [← String.append_assoc]
      rfl
    simp [ReloadConfig, hv, loadConfiguration, hmsg]
  · intro hv readInConfig decode
    simp [ReloadConfig, hv]

/-- C16 as stated fails: with the callback `cb` registered, a successful `InitConfig`
and a successful `ReloadConfig` after it install the configuration and call no
callback. -/
theorem InitConfig_ReloadConfig_call_no_callback :
    (InitConfig [] 120 sampleUUID (sampleEnv none (Except.ok testConfig)) "config.json"
        (RegisterConfigChangeCallback "cb" initialStore)).2 = none ∧
    (InitConfig [] 120 sampleUUID (sampleEnv none (Except.ok testConfig)) "config.json"
        (RegisterConfigChangeCallback "cb" initialStore)).1.configChangeCallbacks = ["cb"] ∧
    (InitConfig [] 120 sampleUUID (sampleEnv none (Except.ok testConfig)) "config.json"
        (RegisterConfigChangeCallback "cb" initialStore)).1.trace
      = [StoreEvent.installed testConfig] ∧
    (ReloadConfig [] 120 sampleUUID none (Except.ok testConfig)
      (InitConfig [] 120 sampleUUID (sampleEnv none (Except.ok testConfig)) "config.json"
        (RegisterConfigChangeCallback "cb" initialStore)).1).2 = none ∧
    (ReloadConfig [] 120 sampleUUID none (Except.ok testConfig)
      (InitConfig [] 120 sampleUUID (sampleEnv none (Except.ok testConfig)) "config.json"
        (RegisterConfigChangeCallback "cb" initialStore)).1).1.trace
      = [StoreEvent.installed testConfig, StoreEvent.installed testConfig] := by
  refine ⟨?_, ?_, ?_, ?_, ?_⟩ <;> decide

/-- C16 amended: on a successful watcher-triggered reload, `onConfigChange` installs
the new configuration and then calls every callback registered so far through
`RegisterConfigChangeCallback` exactly once, in registration order. -/
theorem onConfigChange_calls_callbacks (DefaultSupportModelMap : GoMap (List String))
    (ServiceTimeOut : Int) (uuid : Nat → String) (conf : Configuration) (s : Store)
    (callbacks : List String) :
    onConfigChange DefaultSupportModelMap ServiceTimeOut uuid (Except.ok conf)
        (callbacks.foldl (fun st callback => RegisterConfigChangeCallback callback st) s)
      = { applyConfiguration DefaultSupportModelMap ServiceTimeOut uuid conf
            (callbacks.foldl (fun st callback => RegisterConfigChangeCallback callback st) s) with
          trace := s.trace ++ StoreEvent.installed conf
            :: (s.configChangeCallbacks ++ callbacks).map StoreEvent.called } := by
  rw [register_foldl]
  simp only [onConfigChange, loadConfiguration]
  rw [runCallbacks_eq]
  simp [applyConfiguration]

/-- C17 as stated fails: after the configuration of `TestApplyConfiguration`, a
configuration with an empty `api_key` is applied, and `APIKey` keeps the key of the
first configuration. -/
theorem applyConfiguration_keeps_old_APIKey :
    emptyModelsConfig.APIKey = "" ∧
    (applyConfiguration [] 120 sampleUUID emptyModelsConfig
      (applyConfiguration [] 120 sampleUUID testConfig initialStore)).APIKey = "test-api-key" := by
  constructor <;> decide

/-- C17 amended: for every configuration and every two prior stores, with any two
identifier streams, `applyConfiguration` leaves the same live tuple up to binding
identifiers, apart from the default API key; `APIKey` is the `api_key` of the
configuration when that is not empty, and keeps its prior value when it is empty. -/
theorem applyConfiguration_replaces_tuple (DefaultSupportModelMap : GoMap (List String))
    (ServiceTimeOut : Int) (uuid1 uuid2 : Nat → String) (c : Configuration) (s1 s2 : Store) :
    liveTuple (applyConfiguration DefaultSupportModelMap ServiceTimeOut uuid1 c s1)
      = liveTuple (applyConfiguration DefaultSupportModelMap ServiceTimeOut uuid2 c s2) ∧
    (c.APIKey ≠ "" →
      (applyConfiguration DefaultSupportModelMap ServiceTimeOut uuid1 c s1).APIKey = c.APIKey) ∧
    (c.APIKey = "" →
      (applyConfiguration DefaultSupportModelMap ServiceTimeOut uuid1 c s1).APIKey = s1.APIKey) := by
  obtain ⟨h1, h2⟩ := (eraseState_eq_iff _ _).mp
    (createModelToServiceMap_eraseState DefaultSupportModelMap ServiceTimeOut uuid1 uuid2 c)
  refine ⟨?_, ?_, ?_⟩
  · simp only [liveTuple, applyConfiguration, h1, h2]
  · intro h
    simp [applyConfiguration, h]
  · intro h
    simp [applyConfiguration, h]

/-! ## Provenance and redirect keys: the claims -/

theorem expandEntry_eq (dm : GoMap (List String)) (ST : Int) (g : String) (e : ServiceModel) :
    expandEntry dm ST g e
      = { e with
          Models := (withDefaultModels dm g e).Models
          Timeout := if e.Timeout ≤ 0 then ST else e.Timeout } := by
  unfold expandEntry
  rw [withDefaultTimeout_eq]
  unfold withDefaultModels
  by_cases h : e.Models.length = 0
  · cases hdm : mapLookup dm g <;> simp [h]
  · simp [h]

theorem mapLookup_of_mem_indexGet (idx : GoMap (List ModelDetails)) (N : String)
    (b : ModelDetails) (h : b ∈ indexGet idx N) :
    ∃ ds, mapLookup idx N = some ds ∧ indexGet idx N = ds := by
  unfold indexGet at h ⊢
  cases hl : mapLookup idx N with
  | none =>
    rw [hl] at h
    exact absurd h (List.not_mem_nil _)
  | some ds => exact ⟨ds, rfl, rfl⟩

theorem GetModelService_of_mem (GetLBIndex : String → String → Int → Int)
    (idx : GoMap (List ModelDetails)) (strategy K ns : String) (b : ModelDetails)
    (hLB : ∀ (s key : String) (count : Int), 0 < count →
      0 ≤ GetLBIndex s key count ∧ GetLBIndex s key count < count)
    (hb : b ∈ enabledServices (indexGet idx K) ns) :
    ∃ sd, GetModelService GetLBIndex idx strategy K ns = Outcome.ok sd ∧
      sd ∈ enabledServices (indexGet idx K) ns := by
  have hb0 : b ∈ indexGet idx K := (List.mem_filter.mp hb).1
  obtain ⟨ds, hds, hget⟩ := mapLookup_of_mem_indexGet idx K b hb0
  rw [hget] at hb ⊢
  have hlen : (enabledServices ds ns).length ≠ 0 := by
    intro h0
    rw [List.length_eq_zero] at h0
    rw [h0] at hb
    exact List.not_mem_nil _ hb
  have hpos : (0 : Int) < ((enabledServices ds ns).length : Int) := by omega
  obtain ⟨h0, h1⟩ := hLB strategy K _ hpos
  obtain ⟨sd, hsd, hidx⟩ := sliceIndex_of_lt (enabledServices ds ns) _ h0 h1
  refine ⟨sd, ?_, List.get?_mem hsd⟩
  simp only [GetModelService, hds, hlen, if_false, hidx]

/-- C11: every Binding `b` under a key `M` of the built index embeds the fields of an
enabled Provider Entry `e` listed under the group named `b.ServiceName` (with the
default model list and the default timeout filled in), so `b` is enabled, and `M` is
in the plain model list of `e` after default-list expansion, or in its embedding
model list, or is a key of its redirect table. -/
theorem createModelToServiceMap_binding_origin (DefaultSupportModelMap : GoMap (List String))
    (ServiceTimeOut : Int) (uuid : Nat → String) (config : Configuration) (M : String)
    (b : ModelDetails)
    (hb : b ∈ indexGet (createModelToServiceMap DefaultSupportModelMap ServiceTimeOut uuid
      config).modelToService M) :
    M ∈ mapKeys (createModelToServiceMap DefaultSupportModelMap ServiceTimeOut uuid
      config).modelToService ∧
    ∃ grp ∈ config.Services, grp.1 = b.ServiceName ∧ ∃ e ∈ grp.2, e.Enabled = true ∧
      b.ServiceModel = { e with
        Models := (withDefaultModels DefaultSupportModelMap grp.1 e).Models
        Timeout := if e.Timeout ≤ 0 then ServiceTimeOut else e.Timeout } ∧
      b.ServiceModel.Enabled = true ∧
      (M ∈ (withDefaultModels DefaultSupportModelMap grp.1 e).Models ∨
        M ∈ e.EmbeddingModels ∨ M ∈ mapKeys e.ModelRedirect) := by
  refine ⟨mem_mapKeys_of_mem_indexGet _ _ _ hb, ?_⟩
  obtain ⟨grp, hgrp, e, he, hen, i, h⟩ := createModelToServiceMap_provenance
    DefaultSupportModelMap ServiceTimeOut uuid config M b hb
  have hexp := expandEntry_eq DefaultSupportModelMap ServiceTimeOut grp.1 e
  refine ⟨grp, hgrp, ?_, e, he, hen, ?_, ?_, ?_⟩
  · rcases h with ⟨hb', _⟩ | ⟨hb', _⟩ <;> rw [hb'] <;> rfl
  · rcases h with ⟨hb', _⟩ | ⟨hb', _⟩
    · rw [hb']
      exact hexp
    · rw [hb']
      exact hexp
  · rcases h with ⟨hb', _⟩ | ⟨hb', _⟩
    · rw [hb']
      show (expandEntry DefaultSupportModelMap ServiceTimeOut grp.1 e).Enabled = true
      rw [hexp]
      exact hen
    · rw [hb']
      show (expandEntry DefaultSupportModelMap ServiceTimeOut grp.1 e).Enabled = true
      rw [hexp]
      exact hen
  · rcases h with ⟨_, N, hN, hM⟩ | ⟨_, N, hN, hM⟩
    · rw [hexp] at hN hM
      rcases hM with hM | hM
      · exact Or.inl (hM ▸ hN)
      · exact Or.inr (Or.inr hM)
    · rw [hexp] at hN hM
      rcases hM with hM | hM
      · exact Or.inr (Or.inl (hM ▸ hN))
      · exact Or.inr (Or.inr hM)

/-- Witness for C11: the Binding of `TestApplyConfiguration` under `test-model`. -/
theorem createModelToServiceMap_binding_origin_witness :
    "test-model" ∈ mapKeys (createModelToServiceMap [] 120 sampleUUID testConfig).modelToService :=
  (createModelToServiceMap_binding_origin [] 120 sampleUUID testConfig "test-model"
    (plainDetail sampleUUID "test_service" { testEntry with Timeout := 120 } 0) (by decide)).1

/-- C12 as stated fails: the entry of `svc-a` exposes `v` and redirects `k` to `v`,
the entry of `svc-b` exposes `k` in the same namespace, and an adapter in range that
picks the last candidate makes `GetModelService` return the Binding of `svc-b`. -/
theorem GetModelService_redirect_other_entry :
    (∀ (s key : String) (count : Int), 0 < count →
      0 ≤ lastLB s key count ∧ lastLB s key count < count) ∧
    ("svc-a", [redirectEntry]) ∈ redirectConfig.Services ∧
    redirectEntry.Enabled = true ∧ "v" ∈ redirectEntry.Models ∧
    ("k", "v") ∈ redirectEntry.ModelRedirect ∧
    GetModelService lastLB (createModelToServiceMap [] 120 sampleUUID redirectConfig).modelToService
        "random" "k" redirectEntry.ProviderNamespace
      = Outcome.ok (plainDetail sampleUUID "svc-b" { otherEntry with Timeout := 120 } 1) ∧
    (plainDetail sampleUUID "svc-b" { otherEntry with Timeout := 120 } 1).ServiceModel
      ≠ { redirectEntry with Timeout := 120 } := by
  refine ⟨?_, ?_, ?_, ?_, ?_, ?_, ?_⟩
  · intro s key count hc
    simp only [lastLB]
    omega
  · decide
  · decide
  · decide
  · decide
  · decide
  · decide

/-- C12 amended: for an enabled Provider Entry `e` whose model list holds `V` and whose
redirect table holds the pair `K → V`, a Binding of `e` is in the candidate list of
`V` and among the enabled Bindings under `K` with the namespace of `e`; with an
adapter in range `GetModelService(K, ns)` succeeds and returns one of these
candidates, which has `e` as underlying entry when every such candidate has. -/
theorem GetModelService_redirect_key (DefaultSupportModelMap : GoMap (List String))
    (ServiceTimeOut : Int) (uuid : Nat → String) (config : Configuration)
    (GetLBIndex : String → String → Int → Int) (strategy g : String) (es : List ServiceModel)
    (e : ServiceModel) (K V : String)
    (hLB : ∀ (s key : String) (count : Int), 0 < count →
      0 ≤ GetLBIndex s key count ∧ GetLBIndex s key count < count)
    (hg : (g, es) ∈ config.Services) (he : e ∈ es) (hen : e.Enabled = true)
    (hV : V ∈ e.Models) (hKV : (K, V) ∈ e.ModelRedirect) :
    ∃ b,
      b ∈ indexGet (createModelToServiceMap DefaultSupportModelMap ServiceTimeOut uuid
        config).modelToService V ∧
      b ∈ (indexGet (createModelToServiceMap DefaultSupportModelMap ServiceTimeOut uuid
        config).modelToService K).filter (fun c => c.ServiceModel.Enabled
          && decide (c.ServiceModel.ProviderNamespace = e.ProviderNamespace)) ∧
      b.ServiceName = g ∧
      b.ServiceModel = { e with Timeout := if e.Timeout ≤ 0 then ServiceTimeOut else e.Timeout } ∧
      ∃ sd,
        GetModelService GetLBIndex (createModelToServiceMap DefaultSupportModelMap ServiceTimeOut
          uuid config).modelToService strategy K e.ProviderNamespace = Outcome.ok sd ∧
        sd ∈ (indexGet (createModelToServiceMap DefaultSupportModelMap ServiceTimeOut uuid
          config).modelToService K).filter (fun c => c.ServiceModel.Enabled
            && decide (c.ServiceModel.ProviderNamespace = e.ProviderNamespace)) ∧
        ((∀ c ∈ (indexGet (createModelToServiceMap DefaultSupportModelMap ServiceTimeOut uuid
            config).modelToService K).filter (fun c => c.ServiceModel.Enabled
              && decide (c.ServiceModel.ProviderNamespace = e.ProviderNamespace)),
            c.ServiceModel = b.ServiceModel) →
          sd.ServiceModel
            = { e with Timeout := if e.Timeout ≤ 0 then ServiceTimeOut else e.Timeout }) := by
  have hne : e.Models ≠ [] := List.ne_nil_of_mem hV
  have hexp := expandEntry_of_models_ne_nil DefaultSupportModelMap ServiceTimeOut g e hne
  have hV' : V ∈ (expandEntry DefaultSupportModelMap ServiceTimeOut g e).Models := by
    rw [hexp]
    exact hV
  have hK' : K ∈ mapKeys (expandEntry DefaultSupportModelMap ServiceTimeOut g e).ModelRedirect := by
    rw [hexp]
    exact List.mem_map.mpr ⟨(K, V), hKV, rfl⟩
  obtain ⟨i, hiV, hiK⟩ := createModelToServiceMap_plain_contribution DefaultSupportModelMap
    ServiceTimeOut uuid config (g, es) e V hg he hen hV'
  have hsm : (plainDetail uuid g (expandEntry DefaultSupportModelMap ServiceTimeOut g e)
      i).ServiceModel
      = { e with Timeout := if e.Timeout ≤ 0 then ServiceTimeOut else e.Timeout } := hexp
  have hfilter : plainDetail uuid g (expandEntry DefaultSupportModelMap ServiceTimeOut g e) i
      ∈ enabledServices (indexGet (createModelToServiceMap DefaultSupportModelMap ServiceTimeOut
        uuid config).modelToService K) e.ProviderNamespace := by
    refine List.mem_filter.mpr ⟨hiK K hK', ?_⟩
    rw [hsm]
    simp [hen]
  obtain ⟨sd, hsd, hmem⟩ := GetModelService_of_mem GetLBIndex _ strategy K e.ProviderNamespace
    _ hLB hfilter
  refine ⟨_, hiV, hfilter, rfl, hsm, sd, hsd, hmem, ?_⟩
  intro hall
  rw [hall sd hmem]
  exact hsm

/-- Witness for C12 amended: the entry of `svc-a` in `redirectConfig`, with the adapter
that picks the first candidate. -/
theorem GetModelService_redirect_key_witness :
    ∃ b,
      b ∈ indexGet (createModelToServiceMap [] 120 sampleUUID redirectConfig).modelToService "v" ∧
      b ∈ (indexGet (createModelToServiceMap [] 120 sampleUUID redirectConfig).modelToService
        "k").filter (fun c => c.ServiceModel.Enabled
          && decide (c.ServiceModel.ProviderNamespace = redirectEntry.ProviderNamespace)) ∧
      b.ServiceName = "svc-a" :=
  (GetModelService_redirect_key [] 120 sampleUUID redirectConfig firstLB "first" "svc-a"
    [redirectEntry] redirectEntry "k" "v"
    (by intro s key count hc; simp only [firstLB]; omega)
    (by decide) (by decide) (by decide) (by decide) (by decide)).elim
    (fun b hb => ⟨b, hb.1, hb.2.1, hb.2.2.1⟩)

/-! ## Counting the Bindings under a name -/

theorem length_indexGet_replay_nil (events : List (String × ModelDetails)) (N : String) :
    (indexGet (replay [] events) N).length
      = events.countP (fun ev => decide (ev.1 = N)) := by
  rw [indexGet_replay, List.countP_eq_length_filter]
  simp [indexGet, mapLookup]

theorem mem_mapKeys_mapSet {V : Type} (m : GoMap V) (k N : String) (v : V) :
    N ∈ mapKeys (mapSet m k v) ↔ N = k ∨ N ∈ mapKeys m := by
  induction m with
  | nil => simp [mapSet, mapKeys]
  | cons p rest ih =>
    obtain ⟨a, b⟩ := p
    simp only [mapKeys] at ih
    by_cases h : a = k
    · subst h
      simp [mapSet, mapKeys]
    · simp only [mapSet, h, if_false, mapKeys, List.map_cons, List.mem_cons]
      rw [ih]
      constructor
      · rintro (h1 | h1 | h1)
        · exact Or.inr (Or.inl h1)
        · exact Or.inl h1
        · exact Or.inr (Or.inr h1)
      · rintro (h1 | h1 | h1)
        · exact Or.inr (Or.inl h1)
        · exact Or.inl h1
        · exact Or.inr (Or.inr h1)

theorem mem_mapKeys_replay (events : List (String × ModelDetails))
    (idx : GoMap (List ModelDetails)) (N : String) :
    N ∈ mapKeys (replay idx events) ↔ N ∈ mapKeys idx ∨ ∃ ev ∈ events, ev.1 = N := by
  induction events generalizing idx with
  | nil => simp [replay]
  | cons ev rest ih =>
    have hstep : replay idx (ev :: rest) = replay (appendDetail idx ev.1 ev.2) rest := rfl
    rw [hstep, ih]
    unfold appendDetail
    rw [mem_mapKeys_mapSet]
    constructor
    · rintro ((h | h) | ⟨ev', hev', h⟩)
      · exact Or.inr ⟨ev, List.mem_cons_self _ _, h.symm⟩
      · exact Or.inl h
      · exact Or.inr ⟨ev', List.mem_cons_of_mem _ hev', h⟩
    · rintro (h | ⟨ev', hev', h⟩)
      · exact Or.inl (Or.inr h)
      · rcases List.mem_cons.mp hev' with heq | hmem
        · subst heq
          exact Or.inl (Or.inl h.symm)
        · exact Or.inr ⟨ev', hmem, h⟩

theorem mem_mapKeys_replay_nil_iff (events : List (String × ModelDetails)) (N : String) :
    N ∈ mapKeys (replay [] events) ↔ 0 < events.countP (fun ev => decide (ev.1 = N)) := by
  rw [mem_mapKeys_replay, List.countP_pos_iff]
  simp [mapKeys]

theorem countP_detailEvents (d : ModelDetails) (M N : String) :
    (detailEvents d M).countP (fun ev => decide (ev.1 = N))
      = (if M = N then 1 else 0) + (mapKeys d.ServiceModel.ModelRedirect).count N := by
  unfold detailEvents mapKeys
  rw [List.countP_cons, List.countP_map, List.count_eq_countP, List.countP_map]
  have hfun : ((fun ev : String × ModelDetails => decide (ev.1 = N))
      ∘ fun kv : String × String => (kv.1, d))
      = ((fun x : String => x == N) ∘ Prod.fst) := by
    funext kv
    show decide (kv.1 = N) = (kv.1 == N)
    by_cases hkv : kv.1 = N <;> simp [hkv]
  rw [hfun]
  by_cases h : M = N
  · simp [h]
    omega
  · simp [h]

theorem countP_loopEvents (mk : Nat → ModelDetails) (R : GoMap String)
    (hmk : ∀ i, (mk i).ServiceModel.ModelRedirect = R) (Ms : List String) (n : Nat) (N : String) :
    (loopEvents mk n Ms).countP (fun ev => decide (ev.1 = N))
      = Ms.count N + (mapKeys R).count N * Ms.length := by
  induction Ms generalizing n with
  | nil => simp [loopEvents]
  | cons M rest ih =>
    simp only [loopEvents, List.countP_append, countP_detailEvents, hmk, ih,
      List.length_cons, List.count_cons]
    by_cases h : M = N
    · simp [h]
      ring
    · simp [h]
      ring

theorem countP_entryEvents (dm : GoMap (List String)) (ST : Int) (uuid : Nat → String)
    (g : String) (n : Nat) (e : ServiceModel) (N : String) :
    (entryEvents dm ST uuid g n e).countP (fun ev => decide (ev.1 = N))
      = entryBindings dm ST g e N := by
  unfold entryEvents entryBindings
  by_cases hen : e.Enabled = true
  · simp only [hen, if_true, List.countP_append]
    rw [countP_loopEvents (plainDetail uuid g (expandEntry dm ST g e))
        (expandEntry dm ST g e).ModelRedirect (fun _ => rfl),
      countP_loopEvents (embeddingDetail uuid g (expandEntry dm ST g e))
        (expandEntry dm ST g e).ModelRedirect (fun _ => rfl)]
    ring
  · simp [hen]

theorem countP_groupEvents (dm : GoMap (List String)) (ST : Int) (uuid : Nat → String)
    (g : String) (es : List ServiceModel) (n : Nat) (N : String) :
    (groupEvents dm ST uuid g n es).countP (fun ev => decide (ev.1 = N))
      = groupBindings dm ST (g, es) N := by
  induction es generalizing n with
  | nil => simp [groupEvents, groupBindings]
  | cons e rest ih =>
    simp only [groupEvents, List.countP_append, countP_entryEvents, ih]
    simp [groupBindings]

theorem countP_configEvents (dm : GoMap (List String)) (ST : Int) (uuid : Nat → String)
    (groups : List (String × List ServiceModel)) (n : Nat) (N : String) :
    (configEvents dm ST uuid n groups).countP (fun ev => decide (ev.1 = N))
      = configBindings dm ST groups N := by
  induction groups generalizing n with
  | nil => simp [configEvents, configBindings]
  | cons grp rest ih =>
    simp only [configEvents, List.countP_append, countP_groupEvents, ih]
    simp [configBindings]

/-- The number of Bindings under a name in the built index is the sum of what the
Provider Entries of the configuration put under it. -/
theorem createModelToServiceMap_count (dm : GoMap (List String)) (ST : Int)
    (uuid : Nat → String) (config : Configuration) (N : String) :
    (indexGet (createModelToServiceMap dm ST uuid config).modelToService N).length
      = configBindings dm ST config.Services N := by
  rw [createModelToServiceMap_index, length_indexGet_replay_nil, countP_configEvents]

/-- A name is a key of the built index exactly when some Binding is put under it. -/
theorem createModelToServiceMap_key_iff (dm : GoMap (List String)) (ST : Int)
    (uuid : Nat → String) (config : Configuration) (N : String) :
    N ∈ mapKeys (createModelToServiceMap dm ST uuid config).modelToService
      ↔ 0 < configBindings dm ST config.Services N := by
  rw [createModelToServiceMap_index, mem_mapKeys_replay_nil_iff, countP_configEvents]

/-! ## Redirect expansion and visiting order: the claims -/

theorem withDefaultModels_with_redirect (dm : GoMap (List String)) (g : String)
    (e : ServiceModel) (R : GoMap String) :
    (withDefaultModels dm g { e with ModelRedirect := R }).Models
      = (withDefaultModels dm g e).Models := by
  unfold withDefaultModels
  by_cases h : e.Models.length = 0
  · cases hdm : mapLookup dm g <;> simp [h]
  · simp [h]

theorem entryBindings_eq (dm : GoMap (List String)) (ST : Int) (g : String) (e : ServiceModel)
    (N : String) :
    entryBindings dm ST g e N
      = if e.Enabled = true then
          (withDefaultModels dm g e).Models.count N + e.EmbeddingModels.count N
            + (mapKeys e.ModelRedirect).count N
              * ((withDefaultModels dm g e).Models.length + e.EmbeddingModels.length)
        else 0 := by
  unfold entryBindings
  rw [expandEntry_eq]

theorem count_mapKeys_mapSet_of_ne (R : GoMap String) (K V N : String) (h : N ≠ K) :
    (mapKeys (mapSet R K V)).count N = (mapKeys R).count N := by
  induction R with
  | nil =>
    have hKN : ¬ K = N := fun e => h e.symm
    simp [mapSet, mapKeys, List.count_cons, hKN]
  | cons p rest ih =>
    obtain ⟨a, b⟩ := p
    simp only [mapKeys] at ih
    by_cases ha : a = K
    · subst ha
      simp [mapSet, mapKeys]
    · simp only [mapSet, ha, if_false, mapKeys, List.map_cons, List.count_cons]
      rw [ih]

theorem count_mapKeys_mapSet_le (R : GoMap String) (K V N : String) :
    (mapKeys R).count N ≤ (mapKeys (mapSet R K V)).count N := by
  induction R with
  | nil => simp [mapKeys]
  | cons p rest ih =>
    obtain ⟨a, b⟩ := p
    simp only [mapKeys] at ih
    by_cases ha : a = K
    · subst ha
      simp [mapSet, mapKeys]
    · simp only [mapSet, ha, if_false, mapKeys, List.map_cons, List.count_cons]
      omega

theorem entryBindings_with_redirect (dm : GoMap (List String)) (ST : Int) (g : String)
    (e : ServiceModel) (R : GoMap String) (N : String) :
    entryBindings dm ST g { e with ModelRedirect := R } N
      = if e.Enabled = true then
          (withDefaultModels dm g e).Models.count N + e.EmbeddingModels.count N
            + (mapKeys R).count N
              * ((withDefaultModels dm g e).Models.length + e.EmbeddingModels.length)
        else 0 := by
  rw [entryBindings_eq, withDefaultModels_with_redirect]

theorem entryBindings_addRedirect_of_ne (dm : GoMap (List String)) (ST : Int) (g : String)
    (e : ServiceModel) (K V N : String) (h : N ≠ K) :
    entryBindings dm ST g { e with ModelRedirect := mapSet e.ModelRedirect K V } N
      = entryBindings dm ST g e N := by
  have h1 := entryBindings_with_redirect dm ST g e (mapSet e.ModelRedirect K V) N
  have h2 := entryBindings_eq dm ST g e N
  rw [h1, h2, count_mapKeys_mapSet_of_ne e.ModelRedirect K V N h]

theorem entryBindings_addRedirect_le (dm : GoMap (List String)) (ST : Int) (g : String)
    (e : ServiceModel) (K V N : String) :
    entryBindings dm ST g e N
      ≤ entryBindings dm ST g { e with ModelRedirect := mapSet e.ModelRedirect K V } N := by
  have h1 := entryBindings_with_redirect dm ST g e (mapSet e.ModelRedirect K V) N
  have h2 := entryBindings_eq dm ST g e N
  rw [h1, h2]
  by_cases hen : e.Enabled = true
  · simp only [hen, if_true]
    have hle := count_mapKeys_mapSet_le e.ModelRedirect K V N
    exact Nat.add_le_add_left (Nat.mul_le_mul_right _ hle) _
  · simp [hen]

theorem configBindings_split (dm : GoMap (List String)) (ST : Int)
    (pre post : List (String × List ServiceModel)) (g : String) (es1 es2 : List ServiceModel)
    (e : ServiceModel) (N : String) :
    configBindings dm ST (pre ++ (g, es1 ++ e :: es2) :: post) N
      = configBindings dm ST pre N + groupBindings dm ST (g, es1) N + entryBindings dm ST g e N
        + groupBindings dm ST (g, es2) N + configBindings dm ST post N := by
  simp only [configBindings, groupBindings, List.map_append, List.map_cons, List.sum_append,
    List.sum_cons]
  omega

/-- C13: adding the pair `K → V` to the redirect table of one Provider Entry leaves,
for every name other than `K`, the key status and the number of Bindings in the built
index as they were, and does not lower the number of Bindings under `K`; this also
holds when `K` was a key of the table already. -/
theorem createModelToServiceMap_redirect_additive (DefaultSupportModelMap : GoMap (List String))
    (ServiceTimeOut : Int) (uuid uuid' : Nat → String) (base : Configuration)
    (pre post : List (String × List ServiceModel)) (g : String) (es1 es2 : List ServiceModel)
    (e : ServiceModel) (K V : String) :
    (∀ N, N ≠ K →
      (N ∈ mapKeys (createModelToServiceMap DefaultSupportModelMap ServiceTimeOut uuid'
          { base with Services := pre ++ (g, es1
            ++ { e with ModelRedirect := mapSet e.ModelRedirect K V } :: es2) :: post
          }).modelToService
        ↔ N ∈ mapKeys (createModelToServiceMap DefaultSupportModelMap ServiceTimeOut uuid
          { base with Services := pre ++ (g, es1 ++ e :: es2) :: post }).modelToService) ∧
      (indexGet (createModelToServiceMap DefaultSupportModelMap ServiceTimeOut uuid'
          { base with Services := pre ++ (g, es1
            ++ { e with ModelRedirect := mapSet e.ModelRedirect K V } :: es2) :: post
          }).modelToService N).length
        = (indexGet (createModelToServiceMap DefaultSupportModelMap ServiceTimeOut uuid
          { base with Services := pre ++ (g, es1 ++ e :: es2) :: post
          }).modelToService N).length) ∧
    (indexGet (createModelToServiceMap DefaultSupportModelMap ServiceTimeOut uuid
        { base with Services := pre ++ (g, es1 ++ e :: es2) :: post }).modelToService K).length
      ≤ (indexGet (createModelToServiceMap DefaultSupportModelMap ServiceTimeOut uuid'
        { base with Services := pre ++ (g, es1
          ++ { e with ModelRedirect := mapSet e.ModelRedirect K V } :: es2) :: post
        }).modelToService K).length := by
  constructor
  · intro N hN
    have hcount : configBindings DefaultSupportModelMap ServiceTimeOut
        (pre ++ (g, es1 ++ { e with ModelRedirect := mapSet e.ModelRedirect K V } :: es2) :: post) N
        = configBindings DefaultSupportModelMap ServiceTimeOut
          (pre ++ (g, es1 ++ e :: es2) :: post) N := by
      rw [configBindings_split, configBindings_split,
        entryBindings_addRedirect_of_ne DefaultSupportModelMap ServiceTimeOut g e K V N hN]
    constructor
    · rw [createModelToServiceMap_key_iff, createModelToServiceMap_key_iff]
      show 0 < configBindings DefaultSupportModelMap ServiceTimeOut
          (pre ++ (g, es1 ++ { e with ModelRedirect := mapSet e.ModelRedirect K V } :: es2)
            :: post) N
        ↔ 0 < configBindings DefaultSupportModelMap ServiceTimeOut
          (pre ++ (g, es1 ++ e :: es2) :: post) N
      rw [hcount]
    · rw [createModelToServiceMap_count, createModelToServiceMap_count]
      exact hcount
  · rw [createModelToServiceMap_count, createModelToServiceMap_count]
    show configBindings DefaultSupportModelMap ServiceTimeOut
        (pre ++ (g, es1 ++ e :: es2) :: post) K
      ≤ configBindings DefaultSupportModelMap ServiceTimeOut
        (pre ++ (g, es1 ++ { e with ModelRedirect := mapSet e.ModelRedirect K V } :: es2)
          :: post) K
    rw [configBindings_split, configBindings_split]
    have hle := entryBindings_addRedirect_le DefaultSupportModelMap ServiceTimeOut g e K V K
    omega

theorem entryBindings_of_redirectReordered (dm : GoMap (List String)) (ST : Int) (g : String)
    (e e' : ServiceModel) (N : String) (h : redirectReordered e e') :
    entryBindings dm ST g e N = entryBindings dm ST g e' N := by
  obtain ⟨hperm, heq⟩ := h
  have hcount : (mapKeys e'.ModelRedirect).count N = (mapKeys e.ModelRedirect).count N :=
    (hperm.map Prod.fst).count_eq N
  have h1 := entryBindings_with_redirect dm ST g e e'.ModelRedirect N
  have h2 := entryBindings_eq dm ST g e N
  rw [← heq] at h1
  rw [h1, h2, hcount]

theorem sum_map_of_forall₂ {α β : Type} (R : α → β → Prop) (f : α → Nat) (f' : β → Nat)
    (hf : ∀ a b, R a b → f a = f' b) (xs : List α) (ys : List β) (h : List.Forall₂ R xs ys) :
    (xs.map f).sum = (ys.map f').sum := by
  induction h with
  | nil => rfl
  | cons hab _ ih =>
    simp only [List.map_cons, List.sum_cons]
    rw [hf _ _ hab, ih]

theorem groupBindings_of_groupReordered (dm : GoMap (List String)) (ST : Int)
    (grp grp' : String × List ServiceModel) (N : String) (h : groupReordered grp grp') :
    groupBindings dm ST grp N = groupBindings dm ST grp' N := by
  obtain ⟨hname, hes⟩ := h
  unfold groupBindings
  rw [← hname]
  exact sum_map_of_forall₂ redirectReordered _ _
    (fun e e' he => entryBindings_of_redirectReordered dm ST grp.1 e e' N he) _ _ hes

theorem configBindings_of_servicesReordered (dm : GoMap (List String)) (ST : Int)
    (services services' : GoMap (List ServiceModel)) (N : String)
    (h : servicesReordered services services') :
    configBindings dm ST services N = configBindings dm ST services' N := by
  obtain ⟨mid, hperm, hmid⟩ := h
  unfold configBindings
  rw [(hperm.map (fun group => groupBindings dm ST group N)).sum_eq]
  exact sum_map_of_forall₂ groupReordered _ _
    (fun grp grp' hg => groupBindings_of_groupReordered dm ST grp grp' N hg) _ _ hmid

/-- C14: two runs of `createModelToServiceMap` on the same configuration, whatever the
orders in which the provider groups and the redirect tables of the entries are
visited and whatever the identifiers, give indexes with the same keys and, for every
key, the same number of Bindings. -/
theorem createModelToServiceMap_order_independent (DefaultSupportModelMap : GoMap (List String))
    (ServiceTimeOut : Int) (uuid uuid' : Nat → String) (config config' : Configuration)
    (h : servicesReordered config.Services config'.Services) :
    (∀ N, N ∈ mapKeys (createModelToServiceMap DefaultSupportModelMap ServiceTimeOut uuid
          config).modelToService
        ↔ N ∈ mapKeys (createModelToServiceMap DefaultSupportModelMap ServiceTimeOut uuid'
          config').modelToService) ∧
    (∀ N, (indexGet (createModelToServiceMap DefaultSupportModelMap ServiceTimeOut uuid
          config).modelToService N).length
        = (indexGet (createModelToServiceMap DefaultSupportModelMap ServiceTimeOut uuid'
          config').modelToService N).length) := by
  constructor
  · intro N
    rw [createModelToServiceMap_key_iff, createModelToServiceMap_key_iff,
      configBindings_of_servicesReordered DefaultSupportModelMap ServiceTimeOut _ _ N h]
  · intro N
    rw [createModelToServiceMap_count, createModelToServiceMap_count,
      configBindings_of_servicesReordered DefaultSupportModelMap ServiceTimeOut _ _ N h]

/-- Witness for C14: the two groups of `redirectConfig` visited in either order. -/
theorem createModelToServiceMap_order_independent_witness :
    (∀ N, N ∈ mapKeys (createModelToServiceMap [] 120 sampleUUID redirectConfig).modelToService
        ↔ N ∈ mapKeys (createModelToServiceMap [] 120 sampleUUID
          redirectConfigSwapped).modelToService) ∧
    (∀ N, (indexGet (createModelToServiceMap [] 120 sampleUUID
          redirectConfig).modelToService N).length
        = (indexGet (createModelToServiceMap [] 120 sampleUUID
          redirectConfigSwapped).modelToService N).length) :=
  createModelToServiceMap_order_independent [] 120 sampleUUID sampleUUID redirectConfig
    redirectConfigSwapped
    ⟨[("svc-b", [otherEntry]), ("svc-a", [redirectEntry])], List.Perm.swap _ _ _,
      List.Forall₂.cons ⟨rfl, List.Forall₂.cons ⟨List.Perm.refl _, rfl⟩ List.Forall₂.nil⟩
        (List.Forall₂.cons ⟨rfl, List.Forall₂.cons ⟨List.Perm.refl _, rfl⟩ List.Forall₂.nil⟩
          List.Forall₂.nil)⟩

/-! ## Picking any Binding: the claims -/

theorem codesLE_total (a b : List Nat) : codesLE a b = true ∨ codesLE b a = true := by
  induction a generalizing b with
  | nil => exact Or.inl (by simp [codesLE])
  | cons x xs ih =>
    cases b with
    | nil => exact Or.inr (by simp [codesLE])
    | cons y ys =>
      by_cases h1 : x < y
      · exact Or.inl (by simp [codesLE, h1])
      · by_cases h2 : y < x
        · exact Or.inr (by simp [codesLE, h2])
        · rcases ih ys with h | h
          · exact Or.inl (by simp [codesLE, h1, h2, h])
          · exact Or.inr (by simp [codesLE, h1, h2, h])

theorem codesLE_trans (a b c : List Nat) (hab : codesLE a b = true) (hbc : codesLE b c = true) :
    codesLE a c = true := by
  induction a generalizing b c with
  | nil => simp [codesLE]
  | cons x xs ih =>
    cases b with
    | nil => simp [codesLE] at hab
    | cons y ys =>
      cases c with
      | nil => simp [codesLE] at hbc
      | cons z zs =>
        simp only [codesLE] at hab hbc ⊢
        by_cases hxy : x < y
        · by_cases hyz : y < z
          · have hxz : x < z := by omega
            simp [hxz]
          · by_cases hzy : z < y
            · simp [hyz, hzy] at hbc
            · have hxz : x < z := by omega
              simp [hxz]
        · by_cases hyx : y < x
          · simp [hxy, hyx] at hab
          · simp only [hxy, hyx, if_false] at hab
            by_cases hyz : y < z
            · have hxz : x < z := by omega
              simp [hxz]
            · by_cases hzy : z < y
              · simp [hyz, hzy] at hbc
              · simp only [hyz, hzy, if_false] at hbc
                have hxz : ¬ x < z := by omega
                have hzx : ¬ z < x := by omega
                simp only [hxz, hzx, if_false]
                exact ih ys zs hab hbc

theorem stringLE_total (a b : String) : stringLE a b = true ∨ stringLE b a = true :=
  codesLE_total _ _

theorem stringLE_trans (a b c : String) (hab : stringLE a b = true) (hbc : stringLE b c = true) :
    stringLE a c = true :=
  codesLE_trans _ _ _ hab hbc

theorem insertString_perm (k : String) (xs : List String) :
    (insertString k xs).Perm (k :: xs) := by
  induction xs with
  | nil => exact List.Perm.refl _
  | cons x rest ih =>
    unfold insertString
    by_cases h : stringLE k x = true
    · simp only [h, if_true]
      exact List.Perm.refl _
    · simp only [h]
      exact (List.Perm.cons x ih).trans (List.Perm.swap k x rest)

theorem sortStrings_perm (keys : List String) : (sortStrings keys).Perm keys := by
  induction keys with
  | nil => exact List.Perm.refl _
  | cons k rest ih =>
    unfold sortStrings
    exact (insertString_perm k (sortStrings rest)).trans (List.Perm.cons k ih)

theorem insertString_sorted (k : String) (xs : List String)
    (h : xs.Pairwise (fun a b => stringLE a b = true)) :
    (insertString k xs).Pairwise (fun a b => stringLE a b = true) := by
  induction xs with
  | nil => simp [insertString]
  | cons x rest ih =>
    obtain ⟨hx, hrest⟩ := List.pairwise_cons.mp h
    unfold insertString
    by_cases hk : stringLE k x = true
    · simp only [hk, if_true]
      refine List.pairwise_cons.mpr ⟨?_, h⟩
      intro y hy
      rcases List.mem_cons.mp hy with hy | hy
      · rw [hy]
        exact hk
      · exact stringLE_trans k x y hk (hx y hy)
    · simp only [hk]
      have hxk : stringLE x k = true := by
        rcases stringLE_total k x with h1 | h1
        · exact absurd h1 hk
        · exact h1
      refine List.pairwise_cons.mpr ⟨?_, ih hrest⟩
      intro y hy
      rcases List.mem_cons.mp ((insertString_perm k rest).subset hy) with hy | hy
      · rw [hy]
        exact hxk
      · exact hx y hy

theorem sortStrings_sorted (keys : List String) :
    (sortStrings keys).Pairwise (fun a b => stringLE a b = true) := by
  induction keys with
  | nil => simp [sortStrings]
  | cons k rest ih =>
    unfold sortStrings
    exact insertString_sorted k _ ih

theorem length_sortStrings (keys : List String) : (sortStrings keys).length = keys.length :=
  (sortStrings_perm keys).length_eq

theorem length_mapKeys {V : Type} (m : GoMap V) : (mapKeys m).length = m.length := by
  simp [mapKeys]

theorem sliceIndex_nil {α : Type} (i : Int) : sliceIndex ([] : List α) i = none := by
  unfold sliceIndex
  by_cases h : i < 0 <;> simp [h]

/-- C21, the code at the failing input: a configuration whose only Provider Entry is
disabled is applied, the model index of the store is empty, and for every adapter
`GetRandomEnabledModelDetails` indexes the empty list of keys, which is the
out-of-range panic, instead of returning an error. -/
theorem GetRandomEnabledModelDetails_empty_index_panics :
    (applyConfiguration [] 120 sampleUUID disabledConfig initialStore).ModelToService = [] ∧
    ∀ (GetLBIndex : String → String → Int → Int) (KEYNAME_RANDOM strategy : String),
      GetRandomEnabledModelDetails GetLBIndex KEYNAME_RANDOM
        (applyConfiguration [] 120 sampleUUID disabledConfig initialStore).ModelToService
        strategy = Outcome.panic := by
  have hempty : (applyConfiguration [] 120 sampleUUID disabledConfig
      initialStore).ModelToService = [] := by decide
  refine ⟨hempty, ?_⟩
  intro GetLBIndex KEYNAME_RANDOM strategy
  rw [hempty]
  have hkeys : sortStrings (mapKeys ([] : GoMap (List ModelDetails))) = [] := rfl
  simp only [GetRandomEnabledModelDetails, hkeys, sliceIndex_nil]

/-- C22: on a non-empty index whose candidate lists are all non-empty, with an adapter
in range, `GetRandomEnabledModelDetails` returns the Binding at position `j` of the
whole candidate list of `k`, where `k` is at position `i` of the keys in increasing
order, `i` is the adapter result for the reserved key and the number of keys, and `j`
the adapter result for `k` and the length of its candidate list. -/
theorem GetRandomEnabledModelDetails_spec (GetLBIndex : String → String → Int → Int)
    (KEYNAME_RANDOM : String) (ModelToService : GoMap (List ModelDetails)) (strategy : String)
    (hLB : ∀ (s key : String) (count : Int), 0 < count →
      0 ≤ GetLBIndex s key count ∧ GetLBIndex s key count < count)
    (hne : ModelToService ≠ [])
    (hlists : ∀ k ∈ mapKeys ModelToService, indexGet ModelToService k ≠ []) :
    (sortStrings (mapKeys ModelToService)).Perm (mapKeys ModelToService) ∧
    (sortStrings (mapKeys ModelToService)).Pairwise (fun a b => stringLE a b = true) ∧
    ∃ k b,
      (sortStrings (mapKeys ModelToService)).get?
        (GetLBIndex strategy KEYNAME_RANDOM ((mapKeys ModelToService).length : Int)).toNat
          = some k ∧
      (indexGet ModelToService k).get?
        (GetLBIndex strategy k ((indexGet ModelToService k).length : Int)).toNat = some b ∧
      GetRandomEnabledModelDetails GetLBIndex KEYNAME_RANDOM ModelToService strategy
        = Outcome.ok b := by
  refine ⟨sortStrings_perm _, sortStrings_sorted _, ?_⟩
  have hlen : ModelToService.length ≠ 0 := fun h0 => hne (List.length_eq_zero.mp h0)
  have hpos : (0 : Int) < (ModelToService.length : Int) := by omega
  obtain ⟨h0, h1⟩ := hLB strategy KEYNAME_RANDOM _ hpos
  have hkeys : (sortStrings (mapKeys ModelToService)).length = ModelToService.length := by
    rw [length_sortStrings, length_mapKeys]
  have h1' : GetLBIndex strategy KEYNAME_RANDOM (ModelToService.length : Int)
      < ((sortStrings (mapKeys ModelToService)).length : Int) := by
    rw [hkeys]
    exact h1
  obtain ⟨k, hk, hkidx⟩ := sliceIndex_of_lt (sortStrings (mapKeys ModelToService)) _ h0 h1'
  have hkmem : k ∈ mapKeys ModelToService :=
    (sortStrings_perm _).subset (List.get?_mem hk)
  have hds : (indexGet ModelToService k).length ≠ 0 :=
    fun h0 => hlists k hkmem (List.length_eq_zero.mp h0)
  have hpos2 : (0 : Int) < ((indexGet ModelToService k).length : Int) := by omega
  obtain ⟨h2, h3⟩ := hLB strategy k _ hpos2
  obtain ⟨b, hb, hbidx⟩ := sliceIndex_of_lt (indexGet ModelToService k) _ h2 h3
  refine ⟨k, b, ?_, hb, ?_⟩
  · rw [length_mapKeys]
    exact hk
  · simp only [GetRandomEnabledModelDetails, hkidx, hbidx]

/-- Witness for C22: the index built from `redirectConfig`, whose keys are `v` and
`k`, with the adapter that picks the first candidate. -/
theorem GetRandomEnabledModelDetails_spec_witness :
    ∃ k b,
      (sortStrings (mapKeys (createModelToServiceMap [] 120 sampleUUID
        redirectConfig).modelToService)).get?
          (firstLB "first" "random" ((mapKeys (createModelToServiceMap [] 120 sampleUUID
            redirectConfig).modelToService).length : Int)).toNat = some k ∧
      (indexGet (createModelToServiceMap [] 120 sampleUUID redirectConfig).modelToService k).get?
        (firstLB "first" k ((indexGet (createModelToServiceMap [] 120 sampleUUID
          redirectConfig).modelToService k).length : Int)).toNat = some b ∧
      GetRandomEnabledModelDetails firstLB "random"
        (createModelToServiceMap [] 120 sampleUUID redirectConfig).modelToService "first"
        = Outcome.ok b :=
  (GetRandomEnabledModelDetails_spec firstLB "random"
    (createModelToServiceMap [] 120 sampleUUID redirectConfig).modelToService "first"
    (by intro s key count hc; simp only [firstLB]; omega)
    (by decide) (by decide)).2.2

/-! ## Namespace tag, display set and counts: the claims -/

theorem sliceIndex_mem {α : Type} (xs : List α) (i : Int) (x : α)
    (h : sliceIndex xs i = some x) : x ∈ xs := by
  unfold sliceIndex at h
  by_cases hneg : i < 0
  · simp [hneg] at h
  · simp only [hneg, if_false] at h
    exact List.get?_mem h

theorem GetModelService_ok_mem (GetLBIndex : String → String → Int → Int)
    (idx : GoMap (List ModelDetails)) (strategy M ns : String) (sd : ModelDetails)
    (h : GetModelService GetLBIndex idx strategy M ns = Outcome.ok sd) :
    sd ∈ enabledServices (indexGet idx M) ns := by
  unfold GetModelService at h
  cases hl : mapLookup idx M with
  | none => simp [hl] at h
  | some ds =>
    have hget : indexGet idx M = ds := by simp [indexGet, hl]
    rw [hget]
    simp only [hl] at h
    by_cases hlen : (enabledServices ds ns).length = 0
    · simp [hlen] at h
    · simp only [hlen, if_false] at h
      cases hs : sliceIndex (enabledServices ds ns)
          (GetLBIndex strategy M ((enabledServices ds ns).length : Int)) with
      | none => simp [hs] at h
      | some x =>
        simp only [hs, Outcome.ok.injEq] at h
        rw [← h]
        exact sliceIndex_mem _ _ _ hs

/-- C23 as stated fails: the entry of namespace `ns` has the embedding model `emb`;
`GetModelService(emb, ns)` returns its Binding from the embedding loop, whose
`Namespace` field is empty. -/
theorem GetModelService_embedding_namespace_empty :
    GetModelService firstLB (createModelToServiceMap [] 120 sampleUUID
        embeddingConfig).modelToService "first" "emb" "ns"
      = Outcome.ok (embeddingDetail sampleUUID "svc-a" { embeddingEntry with Timeout := 120 } 1) ∧
    (embeddingDetail sampleUUID "svc-a" { embeddingEntry with Timeout := 120 } 1).Namespace = "" ∧
    (embeddingDetail sampleUUID "svc-a"
      { embeddingEntry with Timeout := 120 } 1).ServiceModel.ProviderNamespace = "ns" := by
  refine ⟨?_, ?_, ?_⟩ <;> decide

/-- C23 amended: a Binding returned by `GetModelService(M, ns)` on the built index is
enabled and embeds an enabled Provider Entry whose `provider_namespace` is `ns`; its
`Namespace` field is `ns` when it comes from the plain-model loop of that entry and is
empty when it comes from the embedding loop. -/
theorem GetModelService_namespace (DefaultSupportModelMap : GoMap (List String))
    (ServiceTimeOut : Int) (uuid : Nat → String) (config : Configuration)
    (GetLBIndex : String → String → Int → Int) (strategy M ns : String) (sd : ModelDetails)
    (h : GetModelService GetLBIndex (createModelToServiceMap DefaultSupportModelMap
      ServiceTimeOut uuid config).modelToService strategy M ns = Outcome.ok sd) :
    sd.ServiceModel.Enabled = true ∧ sd.ServiceModel.ProviderNamespace = ns ∧
    ∃ grp ∈ config.Services, ∃ e ∈ grp.2, e.Enabled = true ∧ e.ProviderNamespace = ns ∧ ∃ i,
      (sd = plainDetail uuid grp.1
          (expandEntry DefaultSupportModelMap ServiceTimeOut grp.1 e) i ∧ sd.Namespace = ns) ∨
      (sd = embeddingDetail uuid grp.1
          (expandEntry DefaultSupportModelMap ServiceTimeOut grp.1 e) i ∧ sd.Namespace = "") := by
  have hmem := GetModelService_ok_mem GetLBIndex _ strategy M ns sd h
  obtain ⟨hidx, hcond⟩ := List.mem_filter.mp hmem
  simp only [Bool.and_eq_true, decide_eq_true_eq] at hcond
  obtain ⟨hen, hns⟩ := hcond
  refine ⟨hen, hns, ?_⟩
  obtain ⟨grp, hgrp, e, he, heen, i, hor⟩ := createModelToServiceMap_provenance
    DefaultSupportModelMap ServiceTimeOut uuid config M sd hidx
  have hpn := (expandEntry_fields DefaultSupportModelMap ServiceTimeOut grp.1 e).2.2.2.2
  refine ⟨grp, hgrp, e, he, heen, ?_, i, ?_⟩
  · rcases hor with ⟨hsd, _⟩ | ⟨hsd, _⟩
    · rw [hsd] at hns
      exact hpn.symm.trans hns
    · rw [hsd] at hns
      exact hpn.symm.trans hns
  · rcases hor with ⟨hsd, _⟩ | ⟨hsd, _⟩
    · refine Or.inl ⟨hsd, ?_⟩
      rw [hsd] at hns ⊢
      exact hns
    · refine Or.inr ⟨hsd, ?_⟩
      rw [hsd]
      rfl

/-- Witness for C23 amended: the plain model `m1` of `embeddingConfig`. -/
theorem GetModelService_namespace_witness :
    (plainDetail sampleUUID "svc-a" { embeddingEntry with Timeout := 120 }
      0).ServiceModel.ProviderNamespace = "ns" :=
  (GetModelService_namespace [] 120 sampleUUID embeddingConfig firstLB "first" "m1" "ns"
    (plainDetail sampleUUID "svc-a" { embeddingEntry with Timeout := 120 } 0) (by decide)).2.1

/-- C24, the code at the failing input: the two groups of `aliasConfig` are visited in
either order; when `svc-a` comes first `SupportModels` ends with the keys `k` and `m`,
when `svc-b` comes first it ends with the key `k` alone.  The order of the pairs of
one redirect table matters as well: with `a → b` before `b → c` the keys are `x`, `a`
and `b`, with `b → c` first they are `x` and `a`. -/
theorem createModelToServiceMap_SupportModels_order_dependent :
    servicesReordered aliasConfig.Services aliasConfigSwapped.Services ∧
    mapKeys (createModelToServiceMap [] 120 sampleUUID aliasConfig).SupportModels = ["k", "m"] ∧
    mapKeys (createModelToServiceMap [] 120 sampleUUID aliasConfigSwapped).SupportModels
      = ["k"] ∧
    servicesReordered (chainConfig [("a", "b"), ("b", "c")]).Services
      (chainConfig [("b", "c"), ("a", "b")]).Services ∧
    mapKeys (createModelToServiceMap [] 120 sampleUUID
      (chainConfig [("a", "b"), ("b", "c")])).SupportModels = ["x", "a", "b"] ∧
    mapKeys (createModelToServiceMap [] 120 sampleUUID
      (chainConfig [("b", "c"), ("a", "b")])).SupportModels = ["x", "a"] := by
  refine ⟨?_, ?_, ?_, ?_, ?_, ?_⟩
  · exact ⟨[("svc-b", [plainEntry]), ("svc-a", [aliasEntry])], List.Perm.swap _ _ _,
      List.Forall₂.cons ⟨rfl, List.Forall₂.cons ⟨List.Perm.refl _, rfl⟩ List.Forall₂.nil⟩
        (List.Forall₂.cons ⟨rfl, List.Forall₂.cons ⟨List.Perm.refl _, rfl⟩ List.Forall₂.nil⟩
          List.Forall₂.nil)⟩
  · decide
  · decide
  · exact ⟨(chainConfig [("a", "b"), ("b", "c")]).Services, List.Perm.refl _,
      List.Forall₂.cons
        ⟨rfl, List.Forall₂.cons ⟨List.Perm.swap _ _ _, rfl⟩ List.Forall₂.nil⟩
        List.Forall₂.nil⟩
  · decide
  · decide

theorem count_of_nodup (keys : List String) (N : String) (h : keys.Nodup) :
    keys.count N = if N ∈ keys then 1 else 0 := by
  by_cases hmem : N ∈ keys
  · simp only [hmem, if_true]
    exact List.count_eq_one_of_mem h hmem
  · simp only [hmem, if_false]
    exact List.count_eq_zero_of_not_mem hmem

theorem entryBindings_of_nodup (dm : GoMap (List String)) (ST : Int) (g : String)
    (e : ServiceModel) (N : String) (h : (mapKeys e.ModelRedirect).Nodup) :
    entryBindings dm ST g e N = if e.Enabled = true then specEntryBindings dm g e N else 0 := by
  rw [entryBindings_eq, count_of_nodup _ N h]
  unfold specEntryBindings
  by_cases hen : e.Enabled = true
  · simp only [hen, if_true]
    by_cases hmem : N ∈ mapKeys e.ModelRedirect
    · simp [hmem]
    · simp [hmem]
  · simp [hen]

theorem groupBindings_of_nodup (dm : GoMap (List String)) (ST : Int) (g : String)
    (es : List ServiceModel) (N : String) (h : ∀ e ∈ es, (mapKeys e.ModelRedirect).Nodup) :
    groupBindings dm ST (g, es) N
      = ((es.filter (fun model => model.Enabled)).map (fun model =>
          specEntryBindings dm g model N)).sum := by
  induction es with
  | nil => rfl
  | cons e rest ih =>
    have hrest := ih (fun e' he' => h e' (List.mem_cons_of_mem _ he'))
    have he := entryBindings_of_nodup dm ST g e N (h e (List.mem_cons_self _ _))
    unfold groupBindings at hrest ⊢
    simp only [List.map_cons, List.sum_cons]
    rw [hrest, he]
    cases hen : e.Enabled
    · simp [List.filter_cons, hen]
    · simp [List.filter_cons, hen]

theorem configBindings_of_nodup (dm : GoMap (List String)) (ST : Int)
    (services : GoMap (List ServiceModel)) (N : String)
    (h : ∀ grp ∈ services, ∀ e ∈ grp.2, (mapKeys e.ModelRedirect).Nodup) :
    configBindings dm ST services N = specConfigBindings dm services N := by
  induction services with
  | nil => rfl
  | cons grp rest ih =>
    have hrest := ih (fun grp' hgrp' => h grp' (List.mem_cons_of_mem _ hgrp'))
    have hgrp := groupBindings_of_nodup dm ST grp.1 grp.2 N (h grp (List.mem_cons_self _ _))
    unfold configBindings specConfigBindings at hrest ⊢
    simp only [List.map_cons, List.sum_cons]
    rw [hrest, hgrp]

/-- C25: when the redirect table of every Provider Entry has distinct keys, as a Go
map has, the number of Bindings under a name `N` in the built index is the sum over
the enabled entries of all groups of the occurrences of `N` in the plain model list
after default-list expansion and in the embedding model list, plus, when `N` is a
redirect key of the entry, the number of its plain and embedding model names; and `N`
is a key of the index exactly when this sum is positive. -/
theorem createModelToServiceMap_binding_count (DefaultSupportModelMap : GoMap (List String))
    (ServiceTimeOut : Int) (uuid : Nat → String) (config : Configuration) (N : String)
    (hmaps : ∀ grp ∈ config.Services, ∀ e ∈ grp.2, (mapKeys e.ModelRedirect).Nodup) :
    (indexGet (createModelToServiceMap DefaultSupportModelMap ServiceTimeOut uuid
        config).modelToService N).length
      = (config.Services.map (fun group =>
          ((group.2.filter (fun model => model.Enabled)).map (fun model =>
            (withDefaultModels DefaultSupportModelMap group.1 model).Models.count N
              + model.EmbeddingModels.count N
              + (if N ∈ mapKeys model.ModelRedirect then
                  (withDefaultModels DefaultSupportModelMap group.1 model).Models.length
                    + model.EmbeddingModels.length
                else 0))).sum)).sum ∧
    (N ∈ mapKeys (createModelToServiceMap DefaultSupportModelMap ServiceTimeOut uuid
        config).modelToService
      ↔ 0 < specConfigBindings DefaultSupportModelMap config.Services N) := by
  have hspec := configBindings_of_nodup DefaultSupportModelMap ServiceTimeOut config.Services N
    hmaps
  constructor
  · rw [createModelToServiceMap_count, hspec]
    rfl
  · rw [createModelToServiceMap_key_iff, hspec]

/-- Witness for C25: the name `k` in `redirectConfig`, once as a redirect key of the
entry of `svc-a` and once as a plain model of the entry of `svc-b`. -/
theorem createModelToServiceMap_binding_count_witness :
    (indexGet (createModelToServiceMap [] 120 sampleUUID redirectConfig).modelToService
      "k").length = 2 :=
  ((createModelToServiceMap_binding_count [] 120 sampleUUID redirectConfig "k"
    (by decide)).1).trans (by decide)

end SimpleOneApi
